import Mathlib

/-!
Verification of the upgrade-tree economy engine and the physics helpers of
the "dot" browser game.

The development shallowly embeds the JavaScript sources:
  * `upgrade-system/upgrade-manager.js` — `PropertyState`, `NodeState`,
    `UpgradeManager` (purchase / refund / stats / save-load);
  * `unnamed/part_004` — `calculateImpactScore`, `calculateTierMultiplier`,
    `createDynamicCostFunction` and `UpgradeTree.getStats`;
  * `unnamed/part_002` — `Physics` (distance, spawn search, magnet forces).

JavaScript numbers are modelled as `ℚ` for the economy engine (all the
operations there are field operations and comparisons) and as `ℝ` for the
physics and cost-scaling code, where `Math.sqrt` / `Math.pow` appear.
Property levels are stored as `ℚ` because `PropertyState.deserialize` can
store arbitrary saved numbers; configuration `maxLevel`s are `ℕ`, matching
the schema requirement that `maxLevel` is a number ≥ 1.
-/

set_option maxHeartbeats 1000000

/-- Replace the first element of `l` whose `key` equals `id` by its image
under `f`; the JS sources do this by looking an object up by id and
mutating it in place. -/
def updateFirstBy {α : Type} (key : α → String) : List α → String → (α → α) → List α
  | [], _, _ => []
  | a :: rest, id, f => if key a = id then f a :: rest else a :: updateFirstBy key rest id f

/-- First element of `l` whose `key` equals `id`; models `Array.find` /
`Map.get` keyed by id. -/
def findByKey {α : Type} (key : α → String) : List α → String → Option α
  | [], _ => none
  | a :: rest, id => if key a = id then some a else findByKey key rest id

/-- Models JavaScript `x || 0` applied to a number (`0` is falsy). -/
def orZero (q : ℚ) : ℚ := if q = 0 then 0 else q

/-- `PropertyState` of `upgrade-manager.js` (constructor lines 14-28).
Display-only fields (`name`, `description`, `icon`) are dropped. -/
@[ext] structure PropertyState where
  id : String
  baseValue : ℚ
  valuePerLevel : ℚ
  maxLevel : ℕ
  effectType : String
  costTier : String
  level : ℚ
deriving DecidableEq

/-- `NodeState` of `upgrade-manager.js` (constructor lines 127-142).
`name` is kept because refund errors report the blocking child's name. -/
@[ext] structure NodeState where
  id : String
  name : String
  parentId : Option String
  requiredParentLevel : ℚ
  isRoot : Bool
  properties : List PropertyState
deriving DecidableEq

/-- The state owned by `UpgradeManager`: node map (insertion order),
currency and lifetime earnings.  Listener lists and the stats cache are
presentation / performance state and are not modelled. -/
@[ext] structure UpgradeManager where
  nodes : List NodeState
  currency : ℚ
  totalEarned : ℚ
deriving DecidableEq

/-- `PropertyState.getValue` (lines 34-45). -/
def PropertyState.getValue (p : PropertyState) : ℚ :=
  if p.effectType = "multiply" then p.baseValue * (1 + p.level * p.valuePerLevel)
  else if p.effectType = "add" then p.baseValue + p.level * p.valuePerLevel
  else if p.effectType = "replace" then
    (if 0 < p.level then p.valuePerLevel * p.level else p.baseValue)
  else p.baseValue

/-- `PropertyState.canUpgrade` (line 73): `level < maxLevel`. -/
def PropertyState.canUpgrade (p : PropertyState) : Bool := p.level < (p.maxLevel : ℚ)

/-- `PropertyState.canRefund` (line 81): `level > 0`. -/
def PropertyState.canRefund (p : PropertyState) : Bool := 0 < p.level

/-- `NodeState.getLevel` (line 148): sum of all property levels. -/
def NodeState.getLevel (n : NodeState) : ℚ := (n.properties.map PropertyState.level).sum

/-- `NodeState.hasInvestment` (line 164): `getLevel() > 0`. -/
def NodeState.hasInvestment (n : NodeState) : Bool := 0 < n.getLevel

/-- `NodeState.getProperty` (line 173): first property with the given id. -/
def NodeState.getProperty (n : NodeState) (propId : String) : Option PropertyState :=
  findByKey PropertyState.id n.properties propId

/-- `UpgradeManager.getNode` (line 338). -/
def UpgradeManager.getNode (m : UpgradeManager) (id : String) : Option NodeState :=
  findByKey NodeState.id m.nodes id

/-- `UpgradeManager.getChildren` (line 355): nodes whose `parentId` is the
given id. -/
def UpgradeManager.getChildren (m : UpgradeManager) (parentId : String) : List NodeState :=
  m.nodes.filter (fun n => n.parentId = some parentId)

/-- `UpgradeManager.isNodeUnlocked` (lines 364-374). -/
def UpgradeManager.isNodeUnlocked (m : UpgradeManager) (nodeId : String) : Bool :=
  match m.getNode nodeId with
  | none => false
  | some node =>
    if node.isRoot then true
    else
      match node.parentId with
      | none => true
      | some pid =>
        match m.getNode pid with
        | none => false
        | some parent => node.requiredParentLevel ≤ parent.getLevel

/-- `UpgradeManager.addCurrency` (lines 384-389). -/
def UpgradeManager.addCurrency (m : UpgradeManager) (amount : ℚ) : UpgradeManager :=
  if amount ≤ 0 then m
  else { m with currency := m.currency + amount, totalEarned := m.totalEarned + amount }

/-- `UpgradeManager.canAfford` (line 404): `currency >= cost`. -/
def UpgradeManager.canAfford (m : UpgradeManager) (cost : ℚ) : Bool := cost ≤ m.currency

/-- The level of property `propId` of node `nodeId`, when both exist. -/
def UpgradeManager.propLevel (m : UpgradeManager) (nodeId propId : String) : Option ℚ :=
  match m.getNode nodeId with
  | none => none
  | some n => (n.getProperty propId).map PropertyState.level

/-- Structured result of `purchaseUpgrade` (the source returns
`{success:false, error:...}` objects; the `error` strings are mapped to
constructors). -/
inductive PurchaseResult where
  | invalidNode
  | nodeLocked
  | invalidProperty
  | maxLevelReached
  | insufficientCurrency (cost : ℚ)
  | purchased (cost newLevel : ℚ)
deriving DecidableEq

/-- Structured result of `refundUpgrade`. -/
inductive RefundResult where
  | invalidNode
  | invalidProperty
  | atLevelZero
  | wouldOrphan (childName : String)
  | refunded (amount newLevel : ℚ)
deriving DecidableEq

/-- The successful-purchase state change (lines 443-445): deduct the cost
and increment the purchased property's level in place. -/
def UpgradeManager.applyPurchase (m : UpgradeManager) (nodeId propId : String) (cost : ℚ) :
    UpgradeManager :=
  { m with
    currency := m.currency - cost
    nodes := updateFirstBy NodeState.id m.nodes nodeId (fun n =>
      { n with properties := updateFirstBy PropertyState.id n.properties propId (fun p =>
          { p with level := p.level + 1 }) }) }

/-- The successful-refund state change (lines 499-501): decrement the
property's level and credit the refund. -/
def UpgradeManager.applyRefund (m : UpgradeManager) (nodeId propId : String) (amount : ℚ) :
    UpgradeManager :=
  { m with
    currency := m.currency + amount
    nodes := updateFirstBy NodeState.id m.nodes nodeId (fun n =>
      { n with properties := updateFirstBy PropertyState.id n.properties propId (fun p =>
          { p with level := p.level - 1 }) }) }

/-- `UpgradeManager.purchaseUpgrade` (lines 418-464).  The cost calculator
is the `options.costCalculator` parameter of the manager.  When the
max-level check has passed, `prop.getUpgradeCost` (lines 53-56) is exactly
`costCalculator(prop, level+1, nodeId)`. -/
def UpgradeManager.purchaseUpgrade (costCalc : PropertyState → ℚ → String → ℚ)
    (m : UpgradeManager) (nodeId propId : String) : PurchaseResult × UpgradeManager :=
  match m.getNode nodeId with
  | none => (.invalidNode, m)
  | some node =>
    if m.isNodeUnlocked nodeId then
      match node.getProperty propId with
      | none => (.invalidProperty, m)
      | some prop =>
        if prop.canUpgrade then
          let cost := costCalc prop (prop.level + 1) nodeId
          if m.canAfford cost then
            (.purchased cost (prop.level + 1), m.applyPurchase nodeId propId cost)
          else (.insufficientCurrency cost, m)
        else (.maxLevelReached, m)
    else (.nodeLocked, m)

/-- `UpgradeManager.refundUpgrade` (lines 472-509).  When the level check
has passed, `prop.getRefundAmount` (lines 64-67) is exactly
`costCalculator(prop, level, nodeId)`. -/
def UpgradeManager.refundUpgrade (costCalc : PropertyState → ℚ → String → ℚ)
    (m : UpgradeManager) (nodeId propId : String) : RefundResult × UpgradeManager :=
  match m.getNode nodeId with
  | none => (.invalidNode, m)
  | some node =>
    match node.getProperty propId with
    | none => (.invalidProperty, m)
    | some prop =>
      if prop.canRefund then
        match (m.getChildren nodeId).find? (fun c =>
            c.hasInvestment && decide (node.getLevel - 1 < c.requiredParentLevel)) with
        | some child => (.wouldOrphan child.name, m)
        | none =>
          let amount := costCalc prop prop.level nodeId
          (.refunded amount (prop.level - 1), m.applyRefund nodeId propId amount)
      else (.atLevelZero, m)

/-- Serialized form of a property (`PropertyState.serialize`, line 109).
`level` is `Option ℚ` so that saved data whose `level` is not a number
(`typeof data.level === 'number'` fails) is representable as `none`. -/
structure PropSave where
  id : String
  level : Option ℚ
deriving DecidableEq

/-- Serialized form of a node (`NodeState.serialize`, lines 191-196). -/
structure NodeSave where
  id : String
  properties : List PropSave
deriving DecidableEq

/-- Serialized form of the whole manager (`UpgradeManager.serialize`,
lines 694-701). -/
structure SaveData where
  version : ℕ
  currency : ℚ
  totalEarned : ℚ
  nodes : List NodeSave
deriving DecidableEq

/-- `PropertyState.serialize` (lines 109-111). -/
def PropertyState.serialize (p : PropertyState) : PropSave := ⟨p.id, some p.level⟩

/-- `PropertyState.deserialize` (lines 117-121): when the saved level is a
number, store `Math.min(data.level, this.maxLevel)`; otherwise leave the
current level. -/
def PropertyState.deserialize (p : PropertyState) (data : PropSave) : PropertyState :=
  match data.level with
  | some l => { p with level := min l (p.maxLevel : ℚ) }
  | none => p

/-- `NodeState.serialize` (lines 191-196). -/
def NodeState.serialize (n : NodeState) : NodeSave :=
  ⟨n.id, n.properties.map PropertyState.serialize⟩

/-- `NodeState.deserialize` (lines 202-208): each saved property entry is
looked up by id (first match) and deserialized into it; entries whose id is
unknown are skipped. -/
def NodeState.deserialize (n : NodeState) (data : NodeSave) : NodeState :=
  { n with
    properties := data.properties.foldl (fun acc pd =>
      updateFirstBy PropertyState.id acc pd.id (fun p => p.deserialize pd)) n.properties }

/-- `UpgradeManager.serialize` (lines 694-701), version tag 2. -/
def UpgradeManager.serialize (m : UpgradeManager) : SaveData :=
  ⟨2, m.currency, m.totalEarned, m.nodes.map NodeState.serialize⟩

/-- `UpgradeManager.deserialize` (lines 707-727): `currency` and
`totalEarned` are read with `|| 0`; each saved node is looked up by id and
deserialized into it, unknown node ids are skipped. -/
def UpgradeManager.deserialize (m : UpgradeManager) (data : SaveData) : UpgradeManager :=
  { currency := orZero data.currency
    totalEarned := orZero data.totalEarned
    nodes := data.nodes.foldl (fun acc nd =>
      updateFirstBy NodeState.id acc nd.id (fun n => n.deserialize nd)) m.nodes }

/-- Property entry of a node configuration.  Optional fields mirror the
`??` / `||` defaults of the `PropertyState` constructor (lines 14-28). -/
structure PropertyConfig where
  id : String
  baseValue : Option ℚ
  valuePerLevel : Option ℚ
  maxLevel : Option ℕ
  effectType : Option String
  costTier : Option String
deriving DecidableEq

/-- Node entry of a configuration (`NodeState` constructor, lines 127-142). -/
structure NodeConfig where
  id : String
  name : String
  parentId : Option String
  requiredParentLevel : Option ℚ
  isRoot : Option Bool
  properties : List PropertyConfig
deriving DecidableEq

/-- `PropertyState` constructor defaults: `baseValue ?? 1`,
`valuePerLevel ?? 0.1`, `maxLevel ?? 5`, `effectType || 'multiply'`,
`costTier || 'standard'`, `level = 0`. -/
def initProperty (c : PropertyConfig) : PropertyState :=
  { id := c.id
    baseValue := c.baseValue.getD 1
    valuePerLevel := c.valuePerLevel.getD (1/10)
    maxLevel := c.maxLevel.getD 5
    effectType := c.effectType.getD "multiply"
    costTier := c.costTier.getD "standard"
    level := 0 }

/-- `NodeState` constructor defaults: `parentId || null`,
`requiredParentLevel || 0`, `isRoot || false`. -/
def initNode (c : NodeConfig) : NodeState :=
  { id := c.id
    name := c.name
    parentId := c.parentId
    requiredParentLevel := c.requiredParentLevel.getD 0
    isRoot := c.isRoot.getD false
    properties := c.properties.map initProperty }

/-- `UpgradeManager` constructor plus `_initializeNodes` (lines 216-306):
build every node from its configuration, currency and earnings start at 0. -/
def initManager (cfg : List NodeConfig) : UpgradeManager :=
  { nodes := cfg.map initNode, currency := 0, totalEarned := 0 }

/-- States reachable from a freshly built manager through the public
mutating API: `addCurrency`, `purchaseUpgrade` and `refundUpgrade`. -/
inductive Reachable (costCalc : PropertyState → ℚ → String → ℚ) (cfg : List NodeConfig) :
    UpgradeManager → Prop where
  | init : Reachable costCalc cfg (initManager cfg)
  | gain (m : UpgradeManager) (amt : ℚ) :
      Reachable costCalc cfg m → Reachable costCalc cfg (m.addCurrency amt)
  | buy (m : UpgradeManager) (nodeId propId : String) :
      Reachable costCalc cfg m →
      Reachable costCalc cfg (m.purchaseUpgrade costCalc nodeId propId).2
  | back (m : UpgradeManager) (nodeId propId : String) :
      Reachable costCalc cfg m →
      Reachable costCalc cfg (m.refundUpgrade costCalc nodeId propId).2

/-- Base values the `UpgradeManager.getStats` accumulator starts from
(lines 587-611). -/
def managerBaseStats : List (String × ℚ) :=
  [("attractStrength", 1), ("attractRadius", 1), ("repelStrength", 1), ("repelRadius", 1),
   ("dotSpeed", 1), ("treatAttraction", 0), ("attractTreats", 0), ("lawOfAttractionRadius", 1),
   ("dangerRepulsion", 0), ("goldDiggerRepulsion", 0), ("spawnDotOnTreat", 0),
   ("spawnTreatOnDeath", 0), ("treatSpawnChance", 0), ("coinGain", 0),
   ("annihalationCost", 10), ("spawnedDotAnnihilation", 0), ("kamikaze", 0)]

/-- One property folded into the stats map by `UpgradeManager.getStats`
(lines 614-628): keys not present in the map are untouched
(`hasOwnProperty`), `multiply` properties multiply the entry, every other
effect type adds `getValue() - baseValue`. -/
def managerStatApply (st : List (String × ℚ)) (p : PropertyState) : List (String × ℚ) :=
  st.map (fun kv =>
    if kv.1 = p.id then
      (kv.1, if p.effectType = "multiply" then kv.2 * p.getValue
             else kv.2 + (p.getValue - p.baseValue))
    else kv)

/-- `UpgradeManager.getStats` (lines 581-635), with the cache dropped (the
cache only memoizes this value). -/
def UpgradeManager.getStats (m : UpgradeManager) : List (String × ℚ) :=
  m.nodes.foldl (fun st n => n.properties.foldl managerStatApply st) managerBaseStats

/-- Base values of the older `UpgradeTree.getStats` accumulator
(`unnamed/part_004`, lines 394-424); note `annihalationCost` starts at 0
there. -/
def treeBaseStats : List (String × ℚ) :=
  [("attractStrength", 1), ("attractRadius", 1), ("attractDuration", 1), ("attractLimit", 1),
   ("repelStrength", 1), ("repelRadius", 1), ("repelDuration", 1), ("repelLimit", 1),
   ("dotSpeed", 1), ("dotSize", 1), ("annihalationCost", 0), ("treatAttraction", 0),
   ("attractTreats", 0), ("lawOfAttractionRadius", 1), ("dangerRepulsion", 0),
   ("goldDiggerRepulsion", 0), ("spawnDotOnTreat", 0), ("spawnTreatOnDeath", 0),
   ("spawnedDotAnnihilation", 0), ("kamikaze", 0), ("treatSpawnChance", 0), ("coinGain", 0)]

/-- One property folded in by `UpgradeTree.getStats` (`unnamed/part_004`,
lines 427-438): non-`multiply` properties add `value - 1` — not the delta
from their own `baseValue`. -/
def treeStatApply (st : List (String × ℚ)) (p : PropertyState) : List (String × ℚ) :=
  st.map (fun kv =>
    if kv.1 = p.id then
      (kv.1, if p.effectType = "multiply" then kv.2 * p.getValue else kv.2 + (p.getValue - 1))
    else kv)

/-- `UpgradeTree.getStats` (`unnamed/part_004`, lines 393-441), over the
tree's node list.  The modelled `PropertyState` carries exactly the fields
`NodeProperty` uses here (`id`, `effectType`, `getValue`). -/
def treeGetStats (nodes : List NodeState) : List (String × ℚ) :=
  nodes.foldl (fun st n => n.properties.foldl treeStatApply st) treeBaseStats

/-- The reduction rule exactly as the specification words it: seed with the
base values, `multiply` properties multiply the entry, `add` and `replace`
properties add the delta `getValue() - baseValue`; properties of any other
effect type leave the map alone. -/
def specStatApply (st : List (String × ℚ)) (p : PropertyState) : List (String × ℚ) :=
  st.map (fun kv =>
    if kv.1 = p.id then
      (kv.1,
        if p.effectType = "multiply" then kv.2 * p.getValue
        else if p.effectType = "add" then kv.2 + (p.getValue - p.baseValue)
        else if p.effectType = "replace" then kv.2 + (p.getValue - p.baseValue)
        else kv.2)
    else kv)

/-- Stats reduction following the specification's words, over a given seed. -/
def specStatsReduce (seed : List (String × ℚ)) (nodes : List NodeState) :
    List (String × ℚ) :=
  nodes.foldl (fun st n => n.properties.foldl specStatApply st) seed

/-- Entry of a stats map, by key. -/
def lookupStat (st : List (String × ℚ)) (key : String) : Option ℚ :=
  (st.find? (fun kv => kv.1 = key)).map (fun kv => kv.2)

/-- JavaScript `hay.includes(needle)`: substring test. -/
def strContains (hay needle : String) : Bool :=
  decide (needle.toList <:+: hay.toList)

/-- `calculateImpactScore` (`unnamed/part_004`, lines 9-50).  Note the
source adds `prop.valuePerLevel * 10` directly — there is no `Math.abs`
around it — and the `switch` on `effectType` leaves the score alone on any
unrecognised string. -/
noncomputable def calculateImpactScore (p : PropertyState) : ℝ :=
  let s1 : ℝ := 1 + (p.valuePerLevel : ℝ) * 10
  let s2 : ℝ :=
    if p.effectType = "multiply" then s1 * 1.5
    else if p.effectType = "add" then s1 * 1.0
    else if p.effectType = "replace" then s1 * 2.0
    else s1
  let s3 : ℝ := s2 * Real.sqrt (p.maxLevel : ℝ)
  let s4 : ℝ := if strContains p.id "spawn" || strContains p.id "annihilation" then s3 * 1.8 else s3
  let s5 : ℝ := if strContains p.id "Limit" then s4 * 1.3 else s4
  if strContains p.id "Radius" || strContains p.id "Strength" then s5 * 1.2 else s5

/-- The impact-score formula exactly as the claim words it, including the
absolute value `|valuePerLevel|`. -/
noncomputable def impactScoreClaimed (p : PropertyState) : ℝ :=
  (1 + |(p.valuePerLevel : ℝ)| * 10) *
    (if p.effectType = "multiply" then 1.5 else if p.effectType = "replace" then 2.0 else 1.0) *
    Real.sqrt (p.maxLevel : ℝ) *
    (if strContains p.id "spawn" || strContains p.id "annihilation" then 1.8 else 1) *
    (if strContains p.id "Limit" then 1.3 else 1) *
    (if strContains p.id "Radius" || strContains p.id "Strength" then 1.2 else 1)

/-- The impact-score formula as amended: the signed `valuePerLevel` enters
directly, without the absolute value; everything else as the claim states. -/
noncomputable def impactScoreAmended (p : PropertyState) : ℝ :=
  (1 + (p.valuePerLevel : ℝ) * 10) *
    (if p.effectType = "multiply" then 1.5 else if p.effectType = "replace" then 2.0 else 1.0) *
    Real.sqrt (p.maxLevel : ℝ) *
    (if strContains p.id "spawn" || strContains p.id "annihilation" then 1.8 else 1) *
    (if strContains p.id "Limit" then 1.3 else 1) *
    (if strContains p.id "Radius" || strContains p.id "Strength" then 1.2 else 1)

/-- `calculateTierMultiplier` (`unnamed/part_004`, lines 55-70). -/
def calculateTierMultiplier (nodeId : String) : ℝ :=
  if nodeId ∈ ["attract", "repel", "dot", "investment", "annihalation"] then 1.0
  else if nodeId ∈ ["attractAdvanced", "repelAdvanced", "resurrection"] then 1.5
  else 2.0

/-- `createDynamicCostFunction` (`unnamed/part_004`, lines 79-105), with
the returned closure applied to `level`.  `Math.pow(1.15, level - 1)` is
modelled with an integer exponent so the formula is faithful at every
level. -/
noncomputable def createDynamicCostFunction (p : PropertyState) (nodeId : String)
    (level : ℕ) : ℤ :=
  let impactScore := calculateImpactScore p
  let tierMultiplier := calculateTierMultiplier nodeId
  let baseCost : ℤ := ⌈impactScore * tierMultiplier⌉
  let levelMultiplier : ℝ :=
    if 15 < impactScore then (1.15 : ℝ) ^ ((level : ℤ) - 1)
    else if 10 < impactScore then 1 + ((level : ℝ) - 1) * 0.2
    else 1 + ((level : ℝ) - 1) * 0.1
  ⌈(baseCost : ℝ) * levelMultiplier⌉

/-- The cost formula exactly as the claim words it: `ceil(baseCost *
levelMultiplier)` with `baseCost = ceil(impactScore * tierMultiplier)` and
the three-way level-scaling law with thresholds 15 and 10. -/
noncomputable def upgradeCostClaimed (p : PropertyState) (nodeId : String) (level : ℕ) : ℤ :=
  let s := calculateImpactScore p
  let baseCost : ℤ := ⌈s * calculateTierMultiplier nodeId⌉
  let levelMultiplier : ℝ :=
    if 15 < s then (1.15 : ℝ) ^ ((level : ℤ) - 1)
    else if 10 < s ∧ s ≤ 15 then 1 + ((level : ℝ) - 1) * 0.2
    else 1 + ((level : ℝ) - 1) * 0.1
  ⌈(baseCost : ℝ) * levelMultiplier⌉

/-- `Physics.distance` (`unnamed/part_002`, lines 118-122). -/
noncomputable def Physics.distance (x1 y1 x2 y2 : ℝ) : ℝ :=
  Real.sqrt ((x2 - x1) * (x2 - x1) + (y2 - y1) * (y2 - y1))

/-- `Physics.isPositionClear` (`unnamed/part_002`, lines 127-134): true iff
no entity is strictly closer than `minDistance`. -/
def isPositionClear (x y : ℝ) (entities : List (ℝ × ℝ)) (minDistance : ℝ) : Prop :=
  ∀ e ∈ entities, ¬ (Physics.distance x y e.1 e.2 < minDistance)

/-- One candidate point of `findSafeSpawnPosition`: two consecutive
`Math.random()` draws (indices `k` and `k+1` of the draw stream) scaled
into the margin box. -/
def spawnPoint (rnd : ℕ → ℝ) (canvasWidth canvasHeight margin : ℝ) (k : ℕ) : ℝ × ℝ :=
  (margin + rnd k * (canvasWidth - margin * 2),
   margin + rnd (k + 1) * (canvasHeight - margin * 2))

/-- The candidate drawn at stream position `k` passes both rejection
checks: not too close to the anchor, not within 80 of any obstacle. -/
def spawnAccepted (ax ay : ℝ) (obstacles : List (ℝ × ℝ)) (w h margin minDist : ℝ)
    (rnd : ℕ → ℝ) (k : ℕ) : Prop :=
  ¬ (Physics.distance (spawnPoint rnd w h margin k).1 (spawnPoint rnd w h margin k).2 ax ay
      < minDist) ∧
  isPositionClear (spawnPoint rnd w h margin k).1 (spawnPoint rnd w h margin k).2 obstacles 80

open Classical in
/-- The attempt loop of `findSafeSpawnPosition` (`unnamed/part_002`, lines
142-163): `fuel` draws remain; each failed attempt consumes two stream
positions; when fuel is exhausted the fallback generates one more fresh
random point (two further `Math.random()` calls) and returns it
unconditionally. -/
noncomputable def spawnAttempts (ax ay : ℝ) (obstacles : List (ℝ × ℝ))
    (w h margin minDist : ℝ) (rnd : ℕ → ℝ) : ℕ → ℕ → ℝ × ℝ
  | k, 0 => spawnPoint rnd w h margin k
  | k, fuel + 1 =>
    let p := spawnPoint rnd w h margin k
    if Physics.distance p.1 p.2 ax ay < minDist then
      spawnAttempts ax ay obstacles w h margin minDist rnd (k + 2) fuel
    else if ¬ isPositionClear p.1 p.2 obstacles 80 then
      spawnAttempts ax ay obstacles w h margin minDist rnd (k + 2) fuel
    else p

/-- `Physics.findSafeSpawnPosition` (`unnamed/part_002`, lines 139-164):
`maxAttempts = 50` rejection-sampling attempts from the draw stream. -/
noncomputable def findSafeSpawnPosition (ax ay : ℝ) (obstacles : List (ℝ × ℝ))
    (w h margin minDist : ℝ) (rnd : ℕ → ℝ) : ℝ × ℝ :=
  spawnAttempts ax ay obstacles w h margin minDist rnd 0 50

/-- A magnet as consumed by `Physics.calculateMagneticForces`:
`getLifePercent()` is modelled as the field `lifePercent`. -/
structure Magnet where
  x : ℝ
  y : ℝ
  dead : Bool
  radius : ℝ
  strength : ℝ
  lifePercent : ℝ
  type : String

/-- The force contribution of one magnet in
`Physics.calculateMagneticForces` (`unnamed/part_002`, lines 18-51); the
`continue`d cases contribute `(0, 0)`.  `this.minDistance` is 20. -/
noncomputable def magnetContribution (dotX dotY : ℝ) (mg : Magnet) : ℝ × ℝ :=
  if mg.dead then (0, 0)
  else
    let dx := mg.x - dotX
    let dy := mg.y - dotY
    let distance := Real.sqrt (dx * dx + dy * dy)
    if mg.radius < distance then (0, 0)
    else
      let effectiveDistance := max distance 20
      let radiusFactor := 1 - distance / mg.radius
      let forceMagnitude := mg.strength * mg.lifePercent * radiusFactor / effectiveDistance
      if distance < 0.001 then (0, 0)
      else
        let nx := dx / distance
        let ny := dy / distance
        if mg.type = "attract" then (nx * forceMagnitude, ny * forceMagnitude)
        else (-(nx * forceMagnitude), -(ny * forceMagnitude))

/-- `Physics.calculateMagneticForces` (`unnamed/part_002`, lines 14-54):
total force is the sum of the per-magnet contributions. -/
noncomputable def calculateMagneticForces (dotX dotY : ℝ) (magnets : List Magnet) : ℝ × ℝ :=
  magnets.foldl (fun acc mg =>
    (acc.1 + (magnetContribution dotX dotY mg).1,
     acc.2 + (magnetContribution dotX dotY mg).2)) (0, 0)

/-- A constant cost calculator, used to instantiate theorems on concrete
states (the manager accepts any `options.costCalculator`). -/
def constCalc (q : ℚ) : PropertyState → ℚ → String → ℚ := fun _ _ _ => q

/-- Fixture: the root node's single property, at level 0. -/
def pDotSpeed : PropertyState := ⟨"dotSpeed", 1, 3/20, 5, "multiply", "standard", 0⟩

/-- Fixture: the root node. -/
def nDot : NodeState := ⟨"dot", "The Dot", none, 0, true, [pDotSpeed]⟩

/-- Fixture: a one-node manager holding 10 currency. -/
def mBase : UpgradeManager := ⟨[nDot], 10, 10⟩

/-- Fixture: a freshly built one-node manager. -/
def mFresh : UpgradeManager := ⟨[nDot], 0, 0⟩

/-- Fixture: an invested parent property at level 5. -/
def pAttractStrength : PropertyState := ⟨"attractStrength", 1, 1/4, 10, "multiply", "standard", 5⟩

/-- Fixture: parent node at total level 5. -/
def nAttract : NodeState := ⟨"attract", "Attraction", some "dot", 0, false, [pAttractStrength]⟩

/-- Fixture: an invested child property at level 1. -/
def pTreatAttraction : PropertyState := ⟨"treatAttraction", 0, 1/2, 5, "add", "expensive", 1⟩

/-- Fixture: invested child node that needs parent level 5. -/
def nAttractAdv : NodeState :=
  ⟨"attractAdvanced", "Law of Attraction", some "attract", 5, false, [pTreatAttraction]⟩

/-- Fixture: manager in which refunding the parent would orphan the
invested child. -/
def mOrphan : UpgradeManager := ⟨[nAttract, nAttractAdv], 0, 0⟩

/-- Fixture: invested property on a locked node. -/
def pAnnCost : PropertyState := ⟨"annihalationCost", 10, -1, 8, "add", "expensive", 1⟩

/-- Fixture: a node that requires parent level 3 while its parent is at
level 0 — locked, but with one level invested. -/
def nAnnLocked : NodeState := ⟨"annihalation", "Annihilation", some "dot", 3, false, [pAnnCost]⟩

/-- Fixture: manager whose locked child node has an invested level. -/
def mLocked : UpgradeManager := ⟨[nDot, nAnnLocked], 0, 0⟩

/-- Fixture: an `add` property whose `baseValue` is 10 (level 0), as the
annihilation-cost property of the default tree in `unnamed/part_004`. -/
def pAnnCost0 : PropertyState := ⟨"annihalationCost", 10, -1, 8, "add", "expensive", 0⟩

/-- Fixture: node carrying `pAnnCost0`, for the stats counterexample. -/
def nAnnTree : NodeState := ⟨"annihalation", "Annihalation", some "dot", 5, false, [pAnnCost0]⟩

/-- Fixture: a property with negative `valuePerLevel` and no special id
substrings, `maxLevel` 1. -/
def pNegative : PropertyState := ⟨"x", 1, -1, 1, "add", "standard", 0⟩

/-- Fixture: a single-node configuration (defaults spelled out). -/
def cfgW : List NodeConfig :=
  [⟨"dot", "The Dot", none, none, some true,
    [⟨"dotSpeed", some 1, some (3/20), some 5, some "multiply", some "standard"⟩]⟩]

/-- Fixture: a reachable state — build, earn 5, buy one level at cost 2. -/
def mRoundtrip : UpgradeManager :=
  (((initManager cfgW).addCurrency 5).purchaseUpgrade (constCalc 2) "dot" "dotSpeed").2

/-- Fixture magnet at (3,4), radius 10, strength 5, full life. -/
def mg9 : Magnet := ⟨3, 4, false, 10, 5, 1, "attract"⟩

/-- Fixture draw stream: every draw is one half. -/
noncomputable def rndHalf : ℕ → ℝ := fun _ => 1/2

/-- Two property states agree on every configuration field (everything but
the mutable `level`). -/
def PropShape (q p : PropertyState) : Prop :=
  q.id = p.id ∧ q.baseValue = p.baseValue ∧ q.valuePerLevel = p.valuePerLevel ∧
  q.maxLevel = p.maxLevel ∧ q.effectType = p.effectType ∧ q.costTier = p.costTier

/-- Two node states agree on every configuration field and have pointwise
shape-equal property lists. -/
def NodeShape (b n : NodeState) : Prop :=
  b.id = n.id ∧ b.name = n.name ∧ b.parentId = n.parentId ∧
  b.requiredParentLevel = n.requiredParentLevel ∧ b.isRoot = n.isRoot ∧
  List.Forall₂ PropShape b.properties n.properties

/-- Every property level of the manager is a natural number within
`[0, maxLevel]`. -/
def LevelsNat (m : UpgradeManager) : Prop :=
  ∀ n ∈ m.nodes, ∀ p ∈ n.properties, ∃ k : ℕ, p.level = (k : ℚ) ∧ k ≤ p.maxLevel

section ListLemmas

variable {α : Type} {key : α → String}

theorem updateFirstBy_of_forall_ne {l : List α} {id : String} {f : α → α}
    (h : ∀ a ∈ l, key a ≠ id) : updateFirstBy key l id f = l := by
  induction l with
  | nil => rfl
  | cons a rest ih =>
    simp only [updateFirstBy]
    rw [if_neg (h a (by simp))]
    rw [ih (fun b hb => h b (by simp [hb]))]

theorem findByKey_updateFirstBy_self {l : List α} {id : String} {f : α → α} {a : α}
    (hf : ∀ x, key (f x) = key x) (h : findByKey key l id = some a) :
    findByKey key (updateFirstBy key l id f) id = some (f a) := by
  induction l with
  | nil => simp [findByKey] at h
  | cons b rest ih =>
    by_cases hb : key b = id
    · simp only [findByKey, if_pos hb] at h
      cases h
      simp [updateFirstBy, findByKey, if_pos hb, hf, hb]
    · simp only [findByKey, if_neg hb] at h
      simp [updateFirstBy, findByKey, if_neg hb, ih h]

theorem findByKey_updateFirstBy_ne {l : List α} {id id' : String} {f : α → α}
    (hf : ∀ x, key (f x) = key x) (h : id' ≠ id) :
    findByKey key (updateFirstBy key l id f) id' = findByKey key l id' := by
  induction l with
  | nil => rfl
  | cons b rest ih =>
    by_cases hb : key b = id
    · have hb' : key (f b) ≠ id' := by rw [hf]; rw [hb]; exact fun hc => h hc.symm
      have hbne : key b ≠ id' := by rw [hb]; exact fun hc => h hc.symm
      simp [updateFirstBy, findByKey, if_pos hb, if_neg hb', if_neg hbne]
    · simp only [updateFirstBy, if_neg hb, findByKey]
      by_cases hb' : key b = id'
      · simp [if_pos hb']
      · simp [if_neg hb', ih]

theorem mem_updateFirstBy {l : List α} {id : String} {f : α → α} {a : α}
    (h : a ∈ updateFirstBy key l id f) :
    a ∈ l ∨ ∃ b, findByKey key l id = some b ∧ a = f b := by
  induction l with
  | nil => simp [updateFirstBy] at h
  | cons b rest ih =>
    by_cases hb : key b = id
    · simp only [updateFirstBy, if_pos hb, List.mem_cons] at h
      rcases h with h | h
      · exact Or.inr ⟨b, by simp [findByKey, if_pos hb], h⟩
      · exact Or.inl (by simp [h])
    · simp only [updateFirstBy, if_neg hb, List.mem_cons] at h
      rcases h with h | h
      · exact Or.inl (by simp [h])
      · rcases ih h with h' | ⟨c, hc, hac⟩
        · exact Or.inl (by simp [h'])
        · exact Or.inr ⟨c, by simp [findByKey, if_neg hb, hc], hac⟩

theorem sum_map_updateFirstBy {l : List α} {id : String} {f : α → α} {b : α} (v : α → ℚ)
    (h : findByKey key l id = some b) :
    ((updateFirstBy key l id f).map v).sum = (l.map v).sum - v b + v (f b) := by
  induction l with
  | nil => simp [findByKey] at h
  | cons a rest ih =>
    by_cases ha : key a = id
    · simp only [findByKey, if_pos ha] at h
      cases h
      simp [updateFirstBy, if_pos ha]
      ring
    · simp only [findByKey, if_neg ha] at h
      simp only [updateFirstBy, if_neg ha, List.map_cons, List.sum_cons, ih h]
      ring

theorem forall2_updateFirstBy {β : Type} {R : β → α → Prop} {bs : List β} {l : List α}
    {id : String} {f : α → α} (h : List.Forall₂ R bs l)
    (hf : ∀ a b, R b a → R b (f a)) : List.Forall₂ R bs (updateFirstBy key l id f) := by
  induction h with
  | nil => exact List.Forall₂.nil
  | @cons b a bs' l' hba hrest ih =>
    by_cases ha : key a = id
    · simp only [updateFirstBy, if_pos ha]
      exact List.Forall₂.cons (hf a b hba) hrest
    · simp only [updateFirstBy, if_neg ha]
      exact List.Forall₂.cons hba ih

theorem map_eq_of_forall2 {β γ : Type} {R : β → α → Prop} {bs : List β} {l : List α}
    (g : β → γ) (g' : α → γ) (h : List.Forall₂ R bs l)
    (hg : ∀ b a, R b a → g b = g' a) : bs.map g = l.map g' := by
  induction h with
  | nil => rfl
  | @cons b a bs' l' hba hrest ih => simp [hg b a hba, ih]

theorem updateFirstBy_cons {a : α} {rest : List α} {id : String} {f : α → α} :
    updateFirstBy key (a :: rest) id f
      = if key a = id then f a :: rest else a :: updateFirstBy key rest id f := rfl

theorem findByKey_cons {a : α} {rest : List α} {id : String} :
    findByKey key (a :: rest) id
      = if key a = id then some a else findByKey key rest id := rfl

theorem foldl_updateFirstBy_skip {σ : Type} {sid : σ → String} {g : σ → α → α}
    {svs : List σ} {x : α} {acc : List α}
    (h : ∀ s ∈ svs, sid s ≠ key x) :
    svs.foldl (fun acc' s => updateFirstBy key acc' (sid s) (g s)) (x :: acc)
      = x :: svs.foldl (fun acc' s => updateFirstBy key acc' (sid s) (g s)) acc := by
  induction svs generalizing acc with
  | nil => rfl
  | cons s rest ih =>
    have hx : key x ≠ sid s := fun hc => h s (by simp) hc.symm
    simp only [List.foldl_cons, updateFirstBy_cons, if_neg hx]
    exact ih (fun t ht => h t (by simp [ht]))

end ListLemmas

theorem foldl_updateFirstBy_restore {α σ : Type} (key : α → String) (sid : σ → String)
    (g : σ → α → α) (ser : α → σ) {bs ms : List α}
    (h : List.Forall₂ (fun b m => key b = key m ∧ g (ser m) b = m) bs ms)
    (hnodup : (ms.map key).Nodup)
    (hsid : ∀ m ∈ ms, sid (ser m) = key m) :
    (ms.map ser).foldl (fun acc s => updateFirstBy key acc (sid s) (g s)) bs = ms := by
  induction h with
  | nil => rfl
  | @cons b m bs' ms' hbm hrest ih =>
    simp only [List.map_cons, List.foldl_cons]
    rw [hsid m (by simp), updateFirstBy_cons, if_pos hbm.1, hbm.2]
    rw [foldl_updateFirstBy_skip]
    · rw [ih (by simpa using hnodup.of_cons) (fun t ht => hsid t (by simp [ht]))]
    · intro s hs
      rcases List.mem_map.mp hs with ⟨m', hm', hser⟩
      rw [← hser, hsid m' (by simp [hm'])]
      intro hc
      simp only [List.map_cons, List.nodup_cons] at hnodup
      exact hnodup.1 (by rw [← hc]; exact List.mem_map_of_mem key hm')


theorem applyPurchase_getNode_self {m : UpgradeManager} {nodeId propId : String} {cost : ℚ}
    {node : NodeState} (h : m.getNode nodeId = some node) :
    (m.applyPurchase nodeId propId cost).getNode nodeId
      = some { node with properties := (updateFirstBy PropertyState.id node.properties propId
                (fun p => { p with level := p.level + 1 })) } :=
  findByKey_updateFirstBy_self (fun _ => rfl) h

theorem applyPurchase_getNode_ne {m : UpgradeManager} {nodeId propId : String} {cost : ℚ}
    {nodeId' : String} (h : nodeId' ≠ nodeId) :
    (m.applyPurchase nodeId propId cost).getNode nodeId' = m.getNode nodeId' :=
  findByKey_updateFirstBy_ne (fun _ => rfl) h

theorem applyRefund_getNode_self {m : UpgradeManager} {nodeId : String} (propId : String)
    (amount : ℚ) {node : NodeState} (h : m.getNode nodeId = some node) :
    (m.applyRefund nodeId propId amount).getNode nodeId
      = some { node with properties := (updateFirstBy PropertyState.id node.properties propId
                (fun p => { p with level := p.level - 1 })) } :=
  findByKey_updateFirstBy_self (fun _ => rfl) h

/-- C1: for every node id and property id, `purchaseUpgrade` performs its
checks in the order unknown node, node locked, unknown property, level at
maximum, unaffordable cost; each failure returns the corresponding
structured error (the insufficient-currency error carrying the required
cost) and returns the state unchanged, and success deducts exactly the
computed cost, increments exactly that one property's level by 1, leaves
every other property level unchanged, and reports the cost and new level. -/
theorem purchaseUpgrade_spec (costCalc : PropertyState → ℚ → String → ℚ)
    (m : UpgradeManager) (nodeId propId : String) :
    (m.getNode nodeId = none →
      m.purchaseUpgrade costCalc nodeId propId = (.invalidNode, m)) ∧
    (∀ node, m.getNode nodeId = some node → m.isNodeUnlocked nodeId = false →
      m.purchaseUpgrade costCalc nodeId propId = (.nodeLocked, m)) ∧
    (∀ node, m.getNode nodeId = some node → m.isNodeUnlocked nodeId = true →
      node.getProperty propId = none →
      m.purchaseUpgrade costCalc nodeId propId = (.invalidProperty, m)) ∧
    (∀ node prop, m.getNode nodeId = some node → m.isNodeUnlocked nodeId = true →
      node.getProperty propId = some prop → prop.canUpgrade = false →
      m.purchaseUpgrade costCalc nodeId propId = (.maxLevelReached, m)) ∧
    (∀ node prop, m.getNode nodeId = some node → m.isNodeUnlocked nodeId = true →
      node.getProperty propId = some prop → prop.canUpgrade = true →
      m.canAfford (costCalc prop (prop.level + 1) nodeId) = false →
      m.purchaseUpgrade costCalc nodeId propId
        = (.insufficientCurrency (costCalc prop (prop.level + 1) nodeId), m)) ∧
    (∀ node prop, m.getNode nodeId = some node → m.isNodeUnlocked nodeId = true →
      node.getProperty propId = some prop → prop.canUpgrade = true →
      m.canAfford (costCalc prop (prop.level + 1) nodeId) = true →
      m.purchaseUpgrade costCalc nodeId propId
        = (.purchased (costCalc prop (prop.level + 1) nodeId) (prop.level + 1),
           m.applyPurchase nodeId propId (costCalc prop (prop.level + 1) nodeId)) ∧
      (m.purchaseUpgrade costCalc nodeId propId).2.currency
        = m.currency - costCalc prop (prop.level + 1) nodeId ∧
      (m.purchaseUpgrade costCalc nodeId propId).2.propLevel nodeId propId
        = some (prop.level + 1) ∧
      (∀ nodeId' propId', (nodeId' = nodeId → propId' ≠ propId) →
        (m.purchaseUpgrade costCalc nodeId propId).2.propLevel nodeId' propId'
          = m.propLevel nodeId' propId')) := by
  refine ⟨?_, ?_, ?_, ?_, ?_, ?_⟩
  · intro h
    simp [UpgradeManager.purchaseUpgrade, h]
  · intro node hnode hu
    simp [UpgradeManager.purchaseUpgrade, hnode, hu]
  · intro node hnode hu hprop
    simp [UpgradeManager.purchaseUpgrade, hnode, hu, hprop]
  · intro node prop hnode hu hprop hcan
    simp [UpgradeManager.purchaseUpgrade, hnode, hu, hprop, hcan]
  · intro node prop hnode hu hprop hcan haff
    simp [UpgradeManager.purchaseUpgrade, hnode, hu, hprop, hcan, haff]
  · intro node prop hnode hu hprop hcan haff
    have hEq : m.purchaseUpgrade costCalc nodeId propId
        = (.purchased (costCalc prop (prop.level + 1) nodeId) (prop.level + 1),
           m.applyPurchase nodeId propId (costCalc prop (prop.level + 1) nodeId)) := by
      simp [UpgradeManager.purchaseUpgrade, hnode, hu, hprop, hcan, haff]
    refine ⟨hEq, by rw [hEq]; rfl, ?_, ?_⟩
    · rw [hEq]
      show UpgradeManager.propLevel _ nodeId propId = _
      rw [UpgradeManager.propLevel, applyPurchase_getNode_self hnode]
      have hfind : findByKey PropertyState.id (updateFirstBy PropertyState.id node.properties
          propId (fun p => { p with level := p.level + 1 })) propId
          = some { prop with level := prop.level + 1 } :=
        findByKey_updateFirstBy_self (fun _ => rfl) hprop
      show (NodeState.getProperty _ propId).map PropertyState.level = _
      rw [show NodeState.getProperty { node with properties := (updateFirstBy PropertyState.id
            node.properties propId (fun p => { p with level := p.level + 1 })) } propId
          = findByKey PropertyState.id (updateFirstBy PropertyState.id node.properties propId
              (fun p => { p with level := p.level + 1 })) propId from rfl, hfind]
      rfl
    · intro nodeId' propId' hne
      rw [hEq]
      by_cases hn : nodeId' = nodeId
      · subst hn
        have hne' : propId' ≠ propId := hne rfl
        have hsameProp : NodeState.getProperty { node with properties :=
              (updateFirstBy PropertyState.id node.properties propId
                (fun p => { p with level := p.level + 1 })) } propId'
            = node.getProperty propId' :=
          findByKey_updateFirstBy_ne (fun _ => rfl) hne'
        simp only [UpgradeManager.propLevel, applyPurchase_getNode_self hnode, hnode]
        rw [hsameProp]
      · show UpgradeManager.propLevel _ nodeId' propId' = _
        rw [UpgradeManager.propLevel, applyPurchase_getNode_ne hn, UpgradeManager.propLevel]

/-- Witness for C1: on a concrete manager with 10 currency and a level-0
property, all five checks pass and the success branch fires with cost 3
and new level 1. -/
theorem purchaseUpgrade_spec_witness :
    mBase.getNode "dot" = some nDot ∧ nDot.getProperty "dotSpeed" = some pDotSpeed ∧
    pDotSpeed.canUpgrade = true ∧
    mBase.canAfford (constCalc 3 pDotSpeed (pDotSpeed.level + 1) "dot") = true ∧
    mBase.purchaseUpgrade (constCalc 3) "dot" "dotSpeed"
      = (.purchased 3 1, mBase.applyPurchase "dot" "dotSpeed" 3) := by
  have h := (purchaseUpgrade_spec (constCalc 3) mBase "dot" "dotSpeed").2.2.2.2.2
    nDot pDotSpeed rfl rfl rfl (by decide) (by decide)
  refine ⟨rfl, rfl, by decide, by decide, ?_⟩
  rw [h.1]
  norm_num [constCalc, pDotSpeed]

theorem findByKey_mem {α : Type} {key : α → String} {l : List α} {id : String} {a : α}
    (h : findByKey key l id = some a) : a ∈ l := by
  induction l with
  | nil => simp [findByKey] at h
  | cons b rest ih =>
    rw [findByKey_cons] at h
    by_cases hb : key b = id
    · rw [if_pos hb] at h
      cases h
      simp
    · rw [if_neg hb] at h
      simp [ih h]

theorem getLevel_refundBump {node : NodeState} {propId : String} {prop : PropertyState}
    (h : node.getProperty propId = some prop) :
    NodeState.getLevel { node with properties := (updateFirstBy PropertyState.id
        node.properties propId (fun p => { p with level := p.level - 1 })) }
      = node.getLevel - 1 := by
  show ((updateFirstBy PropertyState.id node.properties propId
      (fun p => { p with level := p.level - 1 })).map PropertyState.level).sum = _
  rw [sum_map_updateFirstBy PropertyState.level h]
  show (node.properties.map PropertyState.level).sum - prop.level + (prop.level - 1)
    = node.getLevel - 1
  rw [NodeState.getLevel]
  ring

/-- C2: `refundUpgrade` is rejected, with no state change, whenever some
child of the node is invested and would fall below its
`requiredParentLevel`; when the basic checks pass the error names the
blocking child; and after every successful refund, every child of the
refunded node is either uninvested or still satisfies its
`requiredParentLevel` against the node's new level. -/
theorem refundUpgrade_orphan_guard (costCalc : PropertyState → ℚ → String → ℚ)
    (m : UpgradeManager) (nodeId propId : String) :
    (∀ node, m.getNode nodeId = some node →
      (∃ c ∈ m.getChildren nodeId, c.hasInvestment = true ∧
          node.getLevel - 1 < c.requiredParentLevel) →
      (m.refundUpgrade costCalc nodeId propId).2 = m ∧
      ∀ amount newLevel,
        (m.refundUpgrade costCalc nodeId propId).1 ≠ .refunded amount newLevel) ∧
    (∀ node prop child, m.getNode nodeId = some node →
      node.getProperty propId = some prop → prop.canRefund = true →
      (m.getChildren nodeId).find? (fun c =>
          c.hasInvestment && decide (node.getLevel - 1 < c.requiredParentLevel)) = some child →
      m.refundUpgrade costCalc nodeId propId = (.wouldOrphan child.name, m)) ∧
    (∀ amount newLevel node',
      (m.refundUpgrade costCalc nodeId propId).1 = .refunded amount newLevel →
      (m.refundUpgrade costCalc nodeId propId).2.getNode nodeId = some node' →
      ∀ c ∈ (m.refundUpgrade costCalc nodeId propId).2.getChildren nodeId,
        c.hasInvestment = false ∨ c.requiredParentLevel ≤ node'.getLevel) := by
  refine ⟨?_, ?_, ?_⟩
  · intro node hnode hex
    obtain ⟨c, hcmem, hcInv, hclt⟩ := hex
    cases hgp : node.getProperty propId with
    | none =>
      constructor
      · simp [UpgradeManager.refundUpgrade, hnode, hgp]
      · intro amount newLevel
        simp [UpgradeManager.refundUpgrade, hnode, hgp]
    | some prop =>
      cases hcr : prop.canRefund with
      | false =>
        constructor
        · simp [UpgradeManager.refundUpgrade, hnode, hgp, hcr]
        · intro amount newLevel
          simp [UpgradeManager.refundUpgrade, hnode, hgp, hcr]
      | true =>
        have hpred : (fun c => c.hasInvestment
            && decide (node.getLevel - 1 < c.requiredParentLevel)) c = true := by
          simp [hcInv, hclt]
        cases hfd : (m.getChildren nodeId).find? (fun c =>
            c.hasInvestment && decide (node.getLevel - 1 < c.requiredParentLevel)) with
        | none =>
          exact absurd hpred (by simpa using List.find?_eq_none.mp hfd c hcmem)
        | some c' =>
          constructor
          · simp [UpgradeManager.refundUpgrade, hnode, hgp, hcr, hfd]
          · intro amount newLevel
            simp [UpgradeManager.refundUpgrade, hnode, hgp, hcr, hfd]
  · intro node prop child hnode hprop hcan hfind
    simp [UpgradeManager.refundUpgrade, hnode, hprop, hcan, hfind]
  · intro amount newLevel node' hres hnode' c hc
    cases hgn : m.getNode nodeId with
    | none => rw [UpgradeManager.refundUpgrade] at hres; simp [hgn] at hres
    | some node =>
    cases hgp : node.getProperty propId with
    | none => rw [UpgradeManager.refundUpgrade] at hres; simp [hgn, hgp] at hres
    | some prop =>
    cases hcr : prop.canRefund with
    | false => rw [UpgradeManager.refundUpgrade] at hres; simp [hgn, hgp, hcr] at hres
    | true =>
    cases hfd : (m.getChildren nodeId).find? (fun c =>
        c.hasInvestment && decide (node.getLevel - 1 < c.requiredParentLevel)) with
    | some c' => rw [UpgradeManager.refundUpgrade] at hres; simp [hgn, hgp, hcr, hfd] at hres
    | none =>
    have hstate : (m.refundUpgrade costCalc nodeId propId).2
        = m.applyRefund nodeId propId (costCalc prop prop.level nodeId) := by
      simp [UpgradeManager.refundUpgrade, hgn, hgp, hcr, hfd]
    have hnone : ∀ b ∈ m.getChildren nodeId,
        b.hasInvestment = false ∨ ¬ (node.getLevel - 1 < b.requiredParentLevel) := by
      intro b hb
      have hb' := List.find?_eq_none.mp hfd b hb
      by_cases hinv : b.hasInvestment = true
      · right
        intro hlt
        exact hb' (by simp [hinv, hlt])
      · left
        exact Bool.not_eq_true _ ▸ (by simpa using hinv)
    rw [hstate] at hnode' hc
    have hupd := applyRefund_getNode_self propId (costCalc prop prop.level nodeId) hgn
    have hnode'eq : node' = { node with properties := (updateFirstBy PropertyState.id
        node.properties propId (fun p => { p with level := p.level - 1 })) } := by
      rw [hupd] at hnode'
      exact (Option.some.inj hnode').symm
    have hlev : node'.getLevel = node.getLevel - 1 := by
      rw [hnode'eq]
      exact getLevel_refundBump hgp
    have hcmem : c ∈ (m.applyRefund nodeId propId (costCalc prop prop.level nodeId)).nodes
        ∧ c.parentId = some nodeId := by
      have := List.mem_filter.mp hc
      exact ⟨this.1, by simpa using this.2⟩
    rcases mem_updateFirstBy hcmem.1 with hold | ⟨b, hfb, hcb⟩
    · have hcchild : c ∈ m.getChildren nodeId :=
        List.mem_filter.mpr ⟨hold, by simp [hcmem.2]⟩
      rcases hnone c hcchild with hcase | hcase
      · exact Or.inl hcase
      · exact Or.inr (by rw [hlev]; exact not_lt.mp hcase)
    · have hbnode : b = node := by
        have : m.getNode nodeId = some b := hfb
        rw [hgn] at this
        exact (Option.some.inj this).symm
      subst hbnode
      have hceq : c = node' := by rw [hnode'eq, hcb]
      by_cases hinv : c.hasInvestment = true
      · right
        have hnchild : b ∈ m.getChildren nodeId := by
          refine List.mem_filter.mpr ⟨findByKey_mem hfb, ?_⟩
          have : b.parentId = some nodeId := by
            have := hcmem.2
            rw [hcb] at this
            exact this
          simp [this]
        rcases hnone b hnchild with hcase | hcase
        · exfalso
          have hble : b.getLevel ≤ 0 := by
            have := hcase
            rw [NodeState.hasInvestment] at this
            simpa using this
          have : c.getLevel ≤ -1 + 0 := by
            rw [hceq, hlev]
            have : b.getLevel - 1 ≤ 0 - 1 := by linarith
            linarith
          have hcInv : c.hasInvestment = false := by
            rw [NodeState.hasInvestment]
            simp only [decide_eq_false_iff_not, not_lt]
            linarith
          rw [hcInv] at hinv
          exact Bool.false_ne_true hinv
        · have : b.requiredParentLevel ≤ node'.getLevel := by
            rw [hlev]
            exact not_lt.mp hcase
          have hcreq : c.requiredParentLevel = b.requiredParentLevel := by
            rw [hcb]
          rw [hcreq]
          exact this
      · exact Or.inl (by simpa using hinv)

/-- Witness for C2: on a concrete manager whose child node needs parent
level 5 and is invested, refunding the parent (at level 5) is rejected,
naming the child, with the state unchanged. -/
theorem refundUpgrade_orphan_guard_witness :
    mOrphan.getNode "attract" = some nAttract ∧
    nAttract.getProperty "attractStrength" = some pAttractStrength ∧
    pAttractStrength.canRefund = true ∧
    mOrphan.refundUpgrade (constCalc 2) "attract" "attractStrength"
      = (.wouldOrphan "Law of Attraction", mOrphan) := by
  have hfind : (mOrphan.getChildren "attract").find? (fun c =>
      c.hasInvestment && decide (nAttract.getLevel - 1 < c.requiredParentLevel))
      = some nAttractAdv := by
    norm_num [mOrphan, nAttract, nAttractAdv, pAttractStrength, pTreatAttraction,
      UpgradeManager.getChildren, NodeState.hasInvestment, NodeState.getLevel,
      List.filter, List.find?]
  have h := (refundUpgrade_orphan_guard (constCalc 2) mOrphan "attract" "attractStrength").2.1
    nAttract pAttractStrength nAttractAdv rfl rfl (by decide) hfind
  exact ⟨rfl, rfl, by decide, h⟩

/-- C10: `refundUpgrade` never consults the node's unlock status — whenever
the node and property exist, the property's level is positive and no
invested child would fall below its requirement, the refund succeeds and
credits the refund amount, with no reference to `isNodeUnlocked`. -/
theorem refundUpgrade_ignores_lock (costCalc : PropertyState → ℚ → String → ℚ)
    (m : UpgradeManager) (nodeId propId : String) (node : NodeState) (prop : PropertyState)
    (hnode : m.getNode nodeId = some node) (hprop : node.getProperty propId = some prop)
    (hcan : prop.canRefund = true)
    (hfind : (m.getChildren nodeId).find? (fun c =>
        c.hasInvestment && decide (node.getLevel - 1 < c.requiredParentLevel)) = none) :
    m.refundUpgrade costCalc nodeId propId
      = (.refunded (costCalc prop prop.level nodeId) (prop.level - 1),
         m.applyRefund nodeId propId (costCalc prop prop.level nodeId)) ∧
    (m.refundUpgrade costCalc nodeId propId).2.currency
      = m.currency + costCalc prop prop.level nodeId := by
  have hEq : m.refundUpgrade costCalc nodeId propId
      = (.refunded (costCalc prop prop.level nodeId) (prop.level - 1),
         m.applyRefund nodeId propId (costCalc prop prop.level nodeId)) := by
    simp [UpgradeManager.refundUpgrade, hnode, hprop, hcan, hfind]
  exact ⟨hEq, by rw [hEq]; rfl⟩

/-- Witness for C10: on a concrete manager, the node is locked
(`isNodeUnlocked` is false since the parent is at level 0 < 3), and the
refund nevertheless succeeds, crediting the refund amount. -/
theorem refundUpgrade_ignores_lock_witness :
    mLocked.isNodeUnlocked "annihalation" = false ∧
    pAnnCost.canRefund = true ∧
    mLocked.refundUpgrade (constCalc 7) "annihalation" "annihalationCost"
      = (.refunded 7 0, mLocked.applyRefund "annihalation" "annihalationCost" 7) := by
  have h := refundUpgrade_ignores_lock (constCalc 7) mLocked "annihalation" "annihalationCost"
    nAnnLocked pAnnCost rfl rfl (by decide) rfl
  refine ⟨?_, by decide, ?_⟩
  · simp [mLocked, nDot, nAnnLocked, pDotSpeed, UpgradeManager.isNodeUnlocked,
      UpgradeManager.getNode, findByKey, NodeState.getLevel]
  · rw [h.1]
    norm_num [constCalc, pAnnCost]

theorem findByKey_eq_none {α : Type} {key : α → String} {l : List α} {id : String}
    (h : findByKey key l id = none) : ∀ a ∈ l, key a ≠ id := by
  induction l with
  | nil => simp
  | cons b rest ih =>
    rw [findByKey_cons] at h
    by_cases hb : key b = id
    · rw [if_pos hb] at h
      cases h
    · rw [if_neg hb] at h
      intro a ha
      rcases List.mem_cons.mp ha with rfl | ha'
      · exact hb
      · exact ih h a ha'

/-- C7 (amended): `deserialize` ignores saved nodes whose id is unknown and
saved properties whose id is unknown; saved levels that are not numbers are
ignored; a saved numeric level is stored as `min(level, maxLevel)` — so it
never exceeds `maxLevel`, but a negative saved level is stored unchanged
(there is no lower clamp at 0). -/
theorem deserialize_tolerance (m : UpgradeManager) (d : SaveData) :
    ((∀ nd ∈ d.nodes, m.getNode nd.id = none) → (m.deserialize d).nodes = m.nodes) ∧
    (∀ (n : NodeState) (sd : NodeSave),
      (∀ pd ∈ sd.properties, n.getProperty pd.id = none) → n.deserialize sd = n) ∧
    (∀ (p : PropertyState) (pd : PropSave), pd.level = none → p.deserialize pd = p) ∧
    (∀ (p : PropertyState) (pd : PropSave) (l : ℚ), pd.level = some l →
      (p.deserialize pd).level = min l (p.maxLevel : ℚ) ∧
      (p.deserialize pd).level ≤ (p.maxLevel : ℚ)) := by
  refine ⟨?_, ?_, ?_, ?_⟩
  · have haux : ∀ (nds : List NodeSave), (∀ nd ∈ nds, m.getNode nd.id = none) →
        nds.foldl (fun acc nd =>
          updateFirstBy NodeState.id acc nd.id (fun n => n.deserialize nd)) m.nodes
          = m.nodes := by
      intro nds
      induction nds with
      | nil => intro _; rfl
      | cons nd rest ih =>
        intro h
        rw [List.foldl_cons,
          updateFirstBy_of_forall_ne (findByKey_eq_none (h nd (by simp)))]
        exact ih (fun t ht => h t (by simp [ht]))
    intro h
    exact haux d.nodes h
  · intro n sd h
    have haux : ∀ (pds : List PropSave), (∀ pd ∈ pds, n.getProperty pd.id = none) →
        pds.foldl (fun acc pd =>
          updateFirstBy PropertyState.id acc pd.id (fun p => p.deserialize pd)) n.properties
          = n.properties := by
      intro pds
      induction pds with
      | nil => intro _; rfl
      | cons pd rest ih =>
        intro h'
        rw [List.foldl_cons,
          updateFirstBy_of_forall_ne (findByKey_eq_none (h' pd (by simp)))]
        exact ih (fun t ht => h' t (by simp [ht]))
    rw [NodeState.deserialize, haux sd.properties h]
  · intro p pd h
    obtain ⟨pid, plevel⟩ := pd
    simp only at h
    subst h
    rfl
  · intro p pd l h
    obtain ⟨pid, plevel⟩ := pd
    simp only at h
    subst h
    exact ⟨rfl, min_le_right _ _⟩

/-- Witness for C7 (amended): a saved level of 7 on a `maxLevel` 5 property
is stored as `min 7 5 = 5`, within bounds. -/
theorem deserialize_tolerance_witness :
    (⟨"dotSpeed", some 7⟩ : PropSave).level = some 7 ∧
    (pDotSpeed.deserialize ⟨"dotSpeed", some 7⟩).level = min 7 ((pDotSpeed.maxLevel : ℕ) : ℚ) ∧
    (pDotSpeed.deserialize ⟨"dotSpeed", some 7⟩).level ≤ ((pDotSpeed.maxLevel : ℕ) : ℚ) := by
  have h := (deserialize_tolerance mFresh ⟨2, 0, 0, []⟩).2.2.2 pDotSpeed ⟨"dotSpeed", some 7⟩ 7 rfl
  exact ⟨rfl, h.1, h.2⟩

/-- Counterexample for C7 as stated: a saved level of −1 is stored as −1,
outside `[0, maxLevel]` — `PropertyState.deserialize` has no lower clamp. -/
theorem deserialize_negative_level_counterexample :
    (mFresh.deserialize ⟨2, 0, 0, [⟨"dot", [⟨"dotSpeed", some (-1)⟩]⟩]⟩).propLevel
        "dot" "dotSpeed" = some (-1) ∧ ¬ (0 ≤ (-1 : ℚ)) := by
  constructor
  · have hmin : min (-1 : ℚ) ((5 : ℕ) : ℚ) = -1 := by norm_num
    simp [UpgradeManager.deserialize, mFresh, nDot, pDotSpeed, NodeState.deserialize,
      PropertyState.deserialize, updateFirstBy, findByKey, UpgradeManager.propLevel,
      UpgradeManager.getNode, NodeState.getProperty, orZero, hmin]
    norm_num
  · norm_num

theorem managerStatApply_eq_spec : managerStatApply = specStatApply := by
  funext st p
  unfold managerStatApply specStatApply
  have hfun : (fun kv : String × ℚ =>
      if kv.1 = p.id then
        (kv.1, if p.effectType = "multiply" then kv.2 * p.getValue
               else kv.2 + (p.getValue - p.baseValue))
      else kv)
      = (fun kv : String × ℚ =>
      if kv.1 = p.id then
        (kv.1,
          if p.effectType = "multiply" then kv.2 * p.getValue
          else if p.effectType = "add" then kv.2 + (p.getValue - p.baseValue)
          else if p.effectType = "replace" then kv.2 + (p.getValue - p.baseValue)
          else kv.2)
      else kv) := by
    funext kv
    by_cases h1 : kv.1 = p.id
    · rw [if_pos h1, if_pos h1]
      by_cases h2 : p.effectType = "multiply"
      · rw [if_pos h2, if_pos h2]
      · rw [if_neg h2, if_neg h2]
        by_cases h3 : p.effectType = "add"
        · rw [if_pos h3]
        · rw [if_neg h3]
          by_cases h4 : p.effectType = "replace"
          · rw [if_pos h4]
          · rw [if_neg h4]
            have hval : p.getValue = p.baseValue := by
              rw [PropertyState.getValue, if_neg h2, if_neg h3, if_neg h4]
            rw [hval]
            simp
    · rw [if_neg h1, if_neg h1]
  rw [hfun]

/-- C5 (amended): `UpgradeManager.getStats` reduces every property of every
node into the base-value-seeded stats map exactly by the specified rule —
`multiply` properties multiply the entry, `add` and `replace` properties
add the delta `getValue() - baseValue` (so properties sharing a stat id
contribute cumulatively).  The older `UpgradeTree.getStats` of
`unnamed/part_004` instead adds `getValue() - 1` (see the counterexample). -/
theorem getStats_reduction_rule (m : UpgradeManager) :
    m.getStats = specStatsReduce managerBaseStats m.nodes := by
  rw [UpgradeManager.getStats, specStatsReduce, managerStatApply_eq_spec]

/-- Counterexample for C5 as stated: on a node carrying the part_004
annihilation-cost property (`baseValue` 10, level 0, effect type `add`),
`UpgradeTree.getStats` yields 9 for the stat (it adds `getValue() - 1`),
while the claimed `getValue() - baseValue` rule yields 0. -/
theorem treeGetStats_delta_counterexample :
    lookupStat (treeGetStats [nAnnTree]) "annihalationCost" = some 9 ∧
    lookupStat (specStatsReduce treeBaseStats [nAnnTree]) "annihalationCost" = some 0 ∧
    (9 : ℚ) ≠ 0 := by
  refine ⟨?_, ?_, by norm_num⟩
  · simp [treeGetStats, treeBaseStats, treeStatApply, nAnnTree, pAnnCost0, lookupStat,
      PropertyState.getValue, List.find?]
    norm_num
  · simp [specStatsReduce, treeBaseStats, specStatApply, nAnnTree, pAnnCost0, lookupStat,
      PropertyState.getValue, List.find?]

/-- C3 (amended): the impact score computed by `calculateImpactScore`
equals `1 + valuePerLevel * 10` (signed — there is no absolute value),
multiplied by 1.5 for `multiply` and 2.0 for `replace` (1.0 otherwise),
by `maxLevel ^ 0.5`, then by 1.8 when the id contains "spawn" or
"annihilation", 1.3 when it contains "Limit" and 1.2 when it contains
"Radius" or "Strength". -/
theorem calculateImpactScore_formula (p : PropertyState) :
    calculateImpactScore p = impactScoreAmended p := by
  unfold calculateImpactScore impactScoreAmended
  by_cases h2 : p.effectType = "multiply"
  · simp only [if_pos h2]
    split_ifs <;> ring
  · simp only [if_neg h2]
    by_cases h3 : p.effectType = "add"
    · have h4 : ¬ p.effectType = "replace" := by rw [h3]; decide
      simp only [if_pos h3, if_neg h4]
      split_ifs <;> ring
    · simp only [if_neg h3]
      by_cases h4 : p.effectType = "replace"
      · simp only [if_pos h4]
        split_ifs <;> ring
      · simp only [if_neg h4]
        split_ifs <;> ring

/-- Counterexample for C3 as stated: on a property with `valuePerLevel`
−1 (`maxLevel` 1, effect type `add`, plain id), the source computes
`(1 + (−1)·10)·√1 = −9`, while the claimed formula with `|valuePerLevel|`
gives `(1 + 1·10)·√1 = 11`. -/
theorem calculateImpactScore_abs_counterexample :
    calculateImpactScore pNegative ≠ impactScoreClaimed pNegative := by
  have h1 : strContains "x" "spawn" = false := by decide
  have h2 : strContains "x" "annihilation" = false := by decide
  have h3 : strContains "x" "Limit" = false := by decide
  have h4 : strContains "x" "Radius" = false := by decide
  have h5 : strContains "x" "Strength" = false := by decide
  unfold calculateImpactScore impactScoreClaimed
  simp [pNegative, h1, h2, h3, h4, h5, Real.sqrt_one]
  norm_num

/-- C4: for every property, node id and level ≥ 1, the dynamic upgrade
cost equals `ceil(baseCost * levelMultiplier)` with
`baseCost = ceil(impactScore * tierMultiplier)` and the level multiplier
chosen by the 15 / 10 impact thresholds (exponential 1.15, then 0.2-linear,
then 0.1-linear scaling). -/
theorem createDynamicCostFunction_spec (p : PropertyState) (nodeId : String) (level : ℕ)
    (h : 1 ≤ level) :
    createDynamicCostFunction p nodeId level = upgradeCostClaimed p nodeId level := by
  have hcond : ∀ (s A B C : ℝ), (if 15 < s then A else if 10 < s then B else C)
      = (if 15 < s then A else if 10 < s ∧ s ≤ 15 then B else C) := by
    intro s A B C
    by_cases h15 : 15 < s
    · rw [if_pos h15, if_pos h15]
    · rw [if_neg h15, if_neg h15]
      by_cases h10 : 10 < s
      · rw [if_pos h10, if_pos (⟨h10, not_lt.mp h15⟩ : 10 < s ∧ s ≤ 15)]
      · rw [if_neg h10, if_neg (fun hc => h10 hc.1)]
  simp only [createDynamicCostFunction, upgradeCostClaimed]
  rw [hcond]

/-- Witness for C4 at the concrete `dotSpeed` property, node `dot`,
level 1. -/
theorem createDynamicCostFunction_spec_witness :
    1 ≤ 1 ∧ createDynamicCostFunction pDotSpeed "dot" 1 = upgradeCostClaimed pDotSpeed "dot" 1 :=
  ⟨by norm_num, createDynamicCostFunction_spec pDotSpeed "dot" 1 (by norm_num)⟩

/-- C9: for a non-dead magnet with positive strength and positive life
percent, the per-magnet force contribution is the zero vector whenever the
dot-magnet distance is at least the magnet's radius, and has strictly
positive magnitude whenever the distance lies strictly between 0.001 and
the radius. -/
theorem magneticForce_falloff_boundary (dotX dotY : ℝ) (mg : Magnet)
    (hdead : mg.dead = false) (hs : 0 < mg.strength) (hl : 0 < mg.lifePercent) :
    (mg.radius ≤ Physics.distance dotX dotY mg.x mg.y →
      magnetContribution dotX dotY mg = (0, 0)) ∧
    (0.001 < Physics.distance dotX dotY mg.x mg.y →
      Physics.distance dotX dotY mg.x mg.y < mg.radius →
      0 < Real.sqrt ((magnetContribution dotX dotY mg).1 ^ 2
          + (magnetContribution dotX dotY mg).2 ^ 2)) := by
  have hD : Physics.distance dotX dotY mg.x mg.y
      = Real.sqrt ((mg.x - dotX) * (mg.x - dotX) + (mg.y - dotY) * (mg.y - dotY)) := rfl
  constructor
  · intro hge
    rw [hD] at hge
    by_cases hgt : mg.radius
        < Real.sqrt ((mg.x - dotX) * (mg.x - dotX) + (mg.y - dotY) * (mg.y - dotY))
    · simp [magnetContribution, hdead, hgt]
    · by_cases hsmall : Real.sqrt ((mg.x - dotX) * (mg.x - dotX)
          + (mg.y - dotY) * (mg.y - dotY)) < 0.001
      · simp [magnetContribution, hdead, hgt, hsmall]
      · have heq : Real.sqrt ((mg.x - dotX) * (mg.x - dotX) + (mg.y - dotY) * (mg.y - dotY))
            = mg.radius := le_antisymm (not_lt.mp hgt) hge
        have hrpos : (0 : ℝ) < mg.radius :=
          lt_of_lt_of_le (by norm_num : (0:ℝ) < 0.001) (heq ▸ not_lt.mp hsmall)
        have hrf : 1 - Real.sqrt ((mg.x - dotX) * (mg.x - dotX)
            + (mg.y - dotY) * (mg.y - dotY)) / mg.radius = 0 := by
          rw [heq, div_self (ne_of_gt hrpos)]
          ring
        by_cases ht : mg.type = "attract"
        · simp [magnetContribution, hdead, hgt, hsmall, hrf, ht]
        · simp [magnetContribution, hdead, hgt, hsmall, hrf, ht]
  · intro h001 hlt
    rw [hD] at h001 hlt
    have hD0 : (0 : ℝ) < Real.sqrt ((mg.x - dotX) * (mg.x - dotX)
        + (mg.y - dotY) * (mg.y - dotY)) := lt_trans (by norm_num) h001
    have hgt : ¬ (mg.radius
        < Real.sqrt ((mg.x - dotX) * (mg.x - dotX) + (mg.y - dotY) * (mg.y - dotY))) :=
      not_lt.mpr (le_of_lt hlt)
    have hsmall : ¬ (Real.sqrt ((mg.x - dotX) * (mg.x - dotX)
        + (mg.y - dotY) * (mg.y - dotY)) < 0.001) := not_lt.mpr (le_of_lt h001)
    have hrpos : (0 : ℝ) < mg.radius := lt_trans hD0 hlt
    have hrf : 0 < 1 - Real.sqrt ((mg.x - dotX) * (mg.x - dotX)
        + (mg.y - dotY) * (mg.y - dotY)) / mg.radius := by
      rw [sub_pos]
      exact (div_lt_one hrpos).mpr hlt
    have heff : (0 : ℝ) < max (Real.sqrt ((mg.x - dotX) * (mg.x - dotX)
        + (mg.y - dotY) * (mg.y - dotY))) 20 :=
      lt_of_lt_of_le (by norm_num : (0:ℝ) < 20) (le_max_right _ _)
    have hF : 0 < mg.strength * mg.lifePercent * (1 - Real.sqrt ((mg.x - dotX) * (mg.x - dotX)
          + (mg.y - dotY) * (mg.y - dotY)) / mg.radius)
        / max (Real.sqrt ((mg.x - dotX) * (mg.x - dotX) + (mg.y - dotY) * (mg.y - dotY))) 20 :=
      div_pos (mul_pos (mul_pos hs hl) hrf) heff
    have hsq : Real.sqrt ((mg.x - dotX) * (mg.x - dotX) + (mg.y - dotY) * (mg.y - dotY)) ^ 2
        = (mg.x - dotX) * (mg.x - dotX) + (mg.y - dotY) * (mg.y - dotY) :=
      Real.sq_sqrt (add_nonneg (mul_self_nonneg _) (mul_self_nonneg _))
    have hsum_pos : 0 < (mg.x - dotX) * (mg.x - dotX) + (mg.y - dotY) * (mg.y - dotY) := by
      rw [← hsq]
      exact pow_pos hD0 2
    have hkey : ∀ F : ℝ,
        ((mg.x - dotX) / Real.sqrt ((mg.x - dotX) * (mg.x - dotX)
          + (mg.y - dotY) * (mg.y - dotY)) * F) ^ 2
        + ((mg.y - dotY) / Real.sqrt ((mg.x - dotX) * (mg.x - dotX)
          + (mg.y - dotY) * (mg.y - dotY)) * F) ^ 2 = F ^ 2 := by
      intro F
      have hexp : ((mg.x - dotX) / Real.sqrt ((mg.x - dotX) * (mg.x - dotX)
            + (mg.y - dotY) * (mg.y - dotY)) * F) ^ 2
          + ((mg.y - dotY) / Real.sqrt ((mg.x - dotX) * (mg.x - dotX)
            + (mg.y - dotY) * (mg.y - dotY)) * F) ^ 2
          = ((mg.x - dotX) * (mg.x - dotX) + (mg.y - dotY) * (mg.y - dotY))
            / Real.sqrt ((mg.x - dotX) * (mg.x - dotX) + (mg.y - dotY) * (mg.y - dotY)) ^ 2
            * F ^ 2 := by ring
      rw [hexp, hsq, div_self (ne_of_gt hsum_pos), one_mul]
    by_cases ht : mg.type = "attract"
    · simp only [magnetContribution, hdead, Bool.false_eq_true, if_false, if_neg hgt,
        if_neg hsmall, if_pos ht]
      rw [hkey, Real.sqrt_sq_eq_abs, abs_of_pos hF]
      exact hF
    · simp only [magnetContribution, hdead, Bool.false_eq_true, if_false, if_neg hgt,
        if_neg hsmall, if_neg ht]
      have hneg : ∀ a b : ℝ, (-a) ^ 2 + (-b) ^ 2 = a ^ 2 + b ^ 2 := by intro a b; ring
      rw [hneg, hkey, Real.sqrt_sq_eq_abs, abs_of_pos hF]
      exact hF

/-- Witness for C9: the magnet at (3,4) with radius 10 (distance 5 from
the origin) produces a strictly positive-magnitude contribution. -/
theorem magneticForce_falloff_boundary_witness :
    mg9.dead = false ∧ 0 < mg9.strength ∧ 0 < mg9.lifePercent ∧
    0.001 < Physics.distance 0 0 mg9.x mg9.y ∧
    Physics.distance 0 0 mg9.x mg9.y < mg9.radius ∧
    0 < Real.sqrt ((magnetContribution 0 0 mg9).1 ^ 2
        + (magnetContribution 0 0 mg9).2 ^ 2) := by
  have hd : Physics.distance 0 0 mg9.x mg9.y = 5 := by
    show Real.sqrt ((mg9.x - 0) * (mg9.x - 0) + (mg9.y - 0) * (mg9.y - 0)) = 5
    rw [show (mg9.x - 0) * (mg9.x - 0) + (mg9.y - 0) * (mg9.y - 0) = 25 by
      norm_num [mg9]]
    rw [show (25 : ℝ) = 5 ^ 2 by norm_num, Real.sqrt_sq (by norm_num : (0:ℝ) ≤ 5)]
  have h1 : (0.001 : ℝ) < Physics.distance 0 0 mg9.x mg9.y := by rw [hd]; norm_num
  have h2 : Physics.distance 0 0 mg9.x mg9.y < mg9.radius := by rw [hd]; norm_num [mg9]
  exact ⟨rfl, by norm_num [mg9], by norm_num [mg9], h1, h2,
    (magneticForce_falloff_boundary 0 0 mg9 rfl (by norm_num [mg9])
      (by norm_num [mg9])).2 h1 h2⟩

theorem spawnPoint_bounds {rnd : ℕ → ℝ} {w h margin : ℝ}
    (hr : ∀ n, 0 ≤ rnd n ∧ rnd n ≤ 1) (hw : margin * 2 ≤ w) (hh : margin * 2 ≤ h) (k : ℕ) :
    margin ≤ (spawnPoint rnd w h margin k).1 ∧ (spawnPoint rnd w h margin k).1 ≤ w - margin ∧
    margin ≤ (spawnPoint rnd w h margin k).2 ∧ (spawnPoint rnd w h margin k).2 ≤ h - margin := by
  have hx0 : 0 ≤ rnd k * (w - margin * 2) :=
    mul_nonneg (hr k).1 (by linarith)
  have hx1 : rnd k * (w - margin * 2) ≤ w - margin * 2 :=
    mul_le_of_le_one_left (by linarith) (hr k).2
  have hy0 : 0 ≤ rnd (k + 1) * (h - margin * 2) :=
    mul_nonneg (hr (k + 1)).1 (by linarith)
  have hy1 : rnd (k + 1) * (h - margin * 2) ≤ h - margin * 2 :=
    mul_le_of_le_one_left (by linarith) (hr (k + 1)).2
  refine ⟨?_, ?_, ?_, ?_⟩ <;> simp only [spawnPoint] <;> linarith

theorem spawnAttempts_bounds (ax ay : ℝ) (obstacles : List (ℝ × ℝ)) {w h margin : ℝ}
    (minDist : ℝ) {rnd : ℕ → ℝ}
    (hr : ∀ n, 0 ≤ rnd n ∧ rnd n ≤ 1) (hw : margin * 2 ≤ w) (hh : margin * 2 ≤ h) :
    ∀ (fuel k : ℕ),
      margin ≤ (spawnAttempts ax ay obstacles w h margin minDist rnd k fuel).1 ∧
      (spawnAttempts ax ay obstacles w h margin minDist rnd k fuel).1 ≤ w - margin ∧
      margin ≤ (spawnAttempts ax ay obstacles w h margin minDist rnd k fuel).2 ∧
      (spawnAttempts ax ay obstacles w h margin minDist rnd k fuel).2 ≤ h - margin := by
  intro fuel
  induction fuel with
  | zero => intro k; exact spawnPoint_bounds hr hw hh k
  | succ fuel ih =>
    intro k
    rw [spawnAttempts]
    split_ifs with hd hc
    · exact ih (k + 2)
    · exact spawnPoint_bounds hr hw hh k
    · exact ih (k + 2)

theorem spawnAttempts_all_rejected (ax ay : ℝ) (obstacles : List (ℝ × ℝ))
    (w h margin minDist : ℝ) (rnd : ℕ → ℝ) :
    ∀ (fuel k : ℕ),
      (∀ i < fuel, ¬ spawnAccepted ax ay obstacles w h margin minDist rnd (k + 2 * i)) →
      spawnAttempts ax ay obstacles w h margin minDist rnd k fuel
        = spawnPoint rnd w h margin (k + 2 * fuel) := by
  intro fuel
  induction fuel with
  | zero => intro k _; rfl
  | succ fuel ih =>
    intro k hrej
    have h0 : ¬ spawnAccepted ax ay obstacles w h margin minDist rnd k := by
      have := hrej 0 (Nat.succ_pos fuel)
      simpa using this
    have hshift : ∀ i < fuel,
        ¬ spawnAccepted ax ay obstacles w h margin minDist rnd (k + 2 + 2 * i) := by
      intro i hi
      have := hrej (i + 1) (by omega)
      have hidx : k + 2 * (i + 1) = k + 2 + 2 * i := by ring
      rwa [hidx] at this
    have hidx2 : k + 2 + 2 * fuel = k + 2 * (fuel + 1) := by ring
    rw [spawnAttempts]
    split_ifs with hd hc
    · rw [ih (k + 2) hshift, hidx2]
    · exact absurd ⟨hd, hc⟩ h0
    · rw [ih (k + 2) hshift, hidx2]

theorem spawnAttempts_first_accepted (ax ay : ℝ) (obstacles : List (ℝ × ℝ))
    (w h margin minDist : ℝ) (rnd : ℕ → ℝ) :
    ∀ (fuel k j : ℕ), j < fuel →
      (∀ i < j, ¬ spawnAccepted ax ay obstacles w h margin minDist rnd (k + 2 * i)) →
      spawnAccepted ax ay obstacles w h margin minDist rnd (k + 2 * j) →
      spawnAttempts ax ay obstacles w h margin minDist rnd k fuel
        = spawnPoint rnd w h margin (k + 2 * j) := by
  intro fuel
  induction fuel with
  | zero => intro k j hj _ _; exact absurd hj (Nat.not_lt_zero j)
  | succ fuel ih =>
    intro k j hj hrej hacc
    cases j with
    | zero =>
      simp only [Nat.mul_zero, Nat.add_zero] at hacc
      obtain ⟨h1, h2⟩ := hacc
      rw [spawnAttempts, if_neg h1, if_neg (not_not_intro h2)]
      simp
    | succ j' =>
      have h0 : ¬ spawnAccepted ax ay obstacles w h margin minDist rnd k := by
        have := hrej 0 (Nat.succ_pos j')
        simpa using this
      have hshift : ∀ i < j',
          ¬ spawnAccepted ax ay obstacles w h margin minDist rnd (k + 2 + 2 * i) := by
        intro i hi
        have := hrej (i + 1) (by omega)
        have hidx : k + 2 * (i + 1) = k + 2 + 2 * i := by ring
        rwa [hidx] at this
      have hacc' : spawnAccepted ax ay obstacles w h margin minDist rnd (k + 2 + 2 * j') := by
        have hidx : k + 2 * (j' + 1) = k + 2 + 2 * j' := by ring
        rwa [hidx] at hacc
      have hidx2 : k + 2 + 2 * j' = k + 2 * (j' + 1) := by ring
      rw [spawnAttempts]
      split_ifs with hd hc
      · rw [ih (k + 2) j' (by omega) hshift hacc', hidx2]
      · exact absurd ⟨hd, hc⟩ h0
      · rw [ih (k + 2) j' (by omega) hshift hacc', hidx2]

/-- C8 (amended): for every anchor, obstacle list, canvas size and margin
with margin*2 within each dimension, and every draw stream valued in
[0,1], findSafeSpawnPosition returns a point inside
[margin, width-margin] x [margin, height-margin]; it makes at most 50
attempts: if the first accepted attempt is attempt j < 50 it returns that
point, and if all 50 attempts are rejected it generates one further fresh
random point (draws 100 and 101) and returns it unconditionally. -/
theorem findSafeSpawnPosition_spec (ax ay : ℝ) (obstacles : List (ℝ × ℝ))
    (w h margin minDist : ℝ) (rnd : ℕ → ℝ)
    (hr : ∀ n, 0 ≤ rnd n ∧ rnd n ≤ 1) (hw : margin * 2 ≤ w) (hh : margin * 2 ≤ h) :
    (margin ≤ (findSafeSpawnPosition ax ay obstacles w h margin minDist rnd).1 ∧
     (findSafeSpawnPosition ax ay obstacles w h margin minDist rnd).1 ≤ w - margin ∧
     margin ≤ (findSafeSpawnPosition ax ay obstacles w h margin minDist rnd).2 ∧
     (findSafeSpawnPosition ax ay obstacles w h margin minDist rnd).2 ≤ h - margin) ∧
    ((∀ i < 50, ¬ spawnAccepted ax ay obstacles w h margin minDist rnd (2 * i)) →
      findSafeSpawnPosition ax ay obstacles w h margin minDist rnd
        = spawnPoint rnd w h margin 100) ∧
    (∀ j < 50, (∀ i < j, ¬ spawnAccepted ax ay obstacles w h margin minDist rnd (2 * i)) →
      spawnAccepted ax ay obstacles w h margin minDist rnd (2 * j) →
      findSafeSpawnPosition ax ay obstacles w h margin minDist rnd
        = spawnPoint rnd w h margin (2 * j)) := by
  refine ⟨?_, ?_, ?_⟩
  · exact spawnAttempts_bounds ax ay obstacles minDist hr hw hh 50 0
  · intro hrej
    have hres := spawnAttempts_all_rejected ax ay obstacles w h margin minDist rnd 50 0
      (fun i hi => by simpa using hrej i hi)
    simpa [findSafeSpawnPosition] using hres
  · intro j hj hrej hacc
    have hres := spawnAttempts_first_accepted ax ay obstacles w h margin minDist rnd 50 0 j hj
      (fun i hi => by simpa using hrej i hi) (by simpa using hacc)
    simpa [findSafeSpawnPosition] using hres

/-- Witness for C8 (amended) on a concrete 400-by-400 canvas with margin
100 and the constant one-half draw stream. -/
theorem findSafeSpawnPosition_spec_witness :
    (∀ n, 0 ≤ rndHalf n ∧ rndHalf n ≤ 1) ∧ ((100 : ℝ) * 2 ≤ 400) ∧
    (100 ≤ (findSafeSpawnPosition 1000 1000 [] 400 400 100 0 rndHalf).1 ∧
     (findSafeSpawnPosition 1000 1000 [] 400 400 100 0 rndHalf).1 ≤ 400 - 100 ∧
     100 ≤ (findSafeSpawnPosition 1000 1000 [] 400 400 100 0 rndHalf).2 ∧
     (findSafeSpawnPosition 1000 1000 [] 400 400 100 0 rndHalf).2 ≤ 400 - 100) := by
  have hr : ∀ n, 0 ≤ rndHalf n ∧ rndHalf n ≤ 1 := fun n =>
    ⟨by norm_num [rndHalf], by norm_num [rndHalf]⟩
  exact ⟨hr, by norm_num,
    (findSafeSpawnPosition_spec 1000 1000 [] 400 400 100 0 rndHalf hr
      (by norm_num) (by norm_num)).1⟩

/-- Counterexample for C8 as stated: with canvas 10 by 10 and margin 100
(margin exceeding the canvas), the first attempt is accepted and the
returned point (5, 5) violates the claimed bound margin <= x. -/
theorem findSafeSpawnPosition_margin_counterexample :
    findSafeSpawnPosition 1000 1000 [] 10 10 100 0 rndHalf = (5, 5) ∧ ¬ (100 ≤ (5 : ℝ)) := by
  have hacc : spawnAccepted 1000 1000 [] 10 10 100 0 rndHalf (0 + 2 * 0) := by
    constructor
    · exact not_lt.mpr (Real.sqrt_nonneg _)
    · intro e he
      exact absurd he (List.not_mem_nil e)
  have h := spawnAttempts_first_accepted 1000 1000 [] 10 10 100 0 rndHalf 50 0 0
    (by norm_num) (fun i hi => absurd hi (Nat.not_lt_zero i)) hacc
  constructor
  · show spawnAttempts 1000 1000 [] 10 10 100 0 rndHalf 0 50 = (5, 5)
    rw [h]
    show spawnPoint rndHalf 10 10 100 (0 + 2 * 0) = (5, 5)
    simp only [spawnPoint, rndHalf]
    norm_num
  · norm_num

theorem orZero_eq (q : ℚ) : orZero q = q := by
  unfold orZero
  split_ifs with h
  · rw [h]
  · rfl

theorem propShape_refl (p : PropertyState) : PropShape p p :=
  ⟨rfl, rfl, rfl, rfl, rfl, rfl⟩

theorem nodeShape_refl (n : NodeState) : NodeShape n n :=
  ⟨rfl, rfl, rfl, rfl, rfl, List.forall₂_same.mpr (fun p _ => propShape_refl p)⟩

theorem propShape_level {q p : PropertyState} (h : PropShape q p) (l : ℚ) :
    PropShape q { p with level := l } := h

theorem addCurrency_nodes (m : UpgradeManager) (amt : ℚ) :
    (m.addCurrency amt).nodes = m.nodes := by
  unfold UpgradeManager.addCurrency
  split_ifs <;> rfl

theorem propDeserialize_restore {q p : PropertyState} (hs : PropShape q p)
    (hk : ∃ k : ℕ, p.level = (k : ℚ) ∧ k ≤ p.maxLevel) :
    q.deserialize p.serialize = p := by
  obtain ⟨hid, hbase, hvpl, hmax, heff, htier⟩ := hs
  obtain ⟨k, hlev, hle⟩ := hk
  have hmin : min p.level ((q.maxLevel : ℕ) : ℚ) = p.level := by
    rw [hmax, hlev]
    exact min_eq_left (by exact_mod_cast hle)
  show { q with level := min p.level ((q.maxLevel : ℕ) : ℚ) } = p
  rw [hmin]
  cases q
  cases p
  simp only [PropertyState.mk.injEq]
  exact ⟨hid, hbase, hvpl, hmax, heff, htier, trivial⟩

theorem forall2_restore_props {bs ps : List PropertyState}
    (h : List.Forall₂ PropShape bs ps)
    (hk : ∀ p ∈ ps, ∃ k : ℕ, p.level = (k : ℚ) ∧ k ≤ p.maxLevel) :
    List.Forall₂ (fun b p => b.id = p.id ∧
      (fun pd q => PropertyState.deserialize q pd) p.serialize b = p) bs ps := by
  induction h with
  | nil => exact List.Forall₂.nil
  | @cons b p bs' ps' hbp hrest ih =>
    refine List.Forall₂.cons ⟨hbp.1, ?_⟩ (ih (fun t ht => hk t (by simp [ht])))
    exact propDeserialize_restore hbp (hk p (by simp))

theorem nodeDeserialize_restore {b n : NodeState} (hs : NodeShape b n)
    (hnodup : (b.properties.map PropertyState.id).Nodup)
    (hk : ∀ p ∈ n.properties, ∃ k : ℕ, p.level = (k : ℚ) ∧ k ≤ p.maxLevel) :
    b.deserialize n.serialize = n := by
  obtain ⟨hid, hname, hparent, hreq, hroot, hprops⟩ := hs
  have hids : b.properties.map PropertyState.id = n.properties.map PropertyState.id :=
    map_eq_of_forall2 PropertyState.id PropertyState.id hprops (fun q p hqp => hqp.1)
  have hnodup' : (n.properties.map PropertyState.id).Nodup := hids ▸ hnodup
  have hrestore := foldl_updateFirstBy_restore PropertyState.id PropSave.id
    (fun pd q => PropertyState.deserialize q pd) PropertyState.serialize
    (forall2_restore_props hprops hk) hnodup' (fun p _ => rfl)
  have hstep : b.deserialize n.serialize = { b with properties := n.properties } := by
    simp only [NodeState.deserialize, NodeState.serialize]
    rw [hrestore]
  rw [hstep]
  cases b
  cases n
  simp only [NodeState.mk.injEq]
  exact ⟨hid, hname, hparent, hreq, hroot, trivial⟩


theorem purchase_snd_cases (costCalc : PropertyState → ℚ → String → ℚ)
    (m : UpgradeManager) (nodeId propId : String) :
    (m.purchaseUpgrade costCalc nodeId propId).2 = m ∨
    ∃ node prop cost, m.getNode nodeId = some node ∧ node.getProperty propId = some prop ∧
      prop.canUpgrade = true ∧
      (m.purchaseUpgrade costCalc nodeId propId).2 = m.applyPurchase nodeId propId cost := by
  cases hgn : m.getNode nodeId with
  | none => left; simp [UpgradeManager.purchaseUpgrade, hgn]
  | some node =>
    cases hu : m.isNodeUnlocked nodeId with
    | false => left; simp [UpgradeManager.purchaseUpgrade, hgn, hu]
    | true =>
      cases hgp : node.getProperty propId with
      | none => left; simp [UpgradeManager.purchaseUpgrade, hgn, hu, hgp]
      | some prop =>
        cases hcu : prop.canUpgrade with
        | false => left; simp [UpgradeManager.purchaseUpgrade, hgn, hu, hgp, hcu]
        | true =>
          cases haff : m.canAfford (costCalc prop (prop.level + 1) nodeId) with
          | false => left; simp [UpgradeManager.purchaseUpgrade, hgn, hu, hgp, hcu, haff]
          | true =>
            right
            exact ⟨node, prop, costCalc prop (prop.level + 1) nodeId, rfl, hgp, hcu,
              by simp [UpgradeManager.purchaseUpgrade, hgn, hu, hgp, hcu, haff]⟩

theorem refund_snd_cases (costCalc : PropertyState → ℚ → String → ℚ)
    (m : UpgradeManager) (nodeId propId : String) :
    (m.refundUpgrade costCalc nodeId propId).2 = m ∨
    ∃ node prop amount, m.getNode nodeId = some node ∧ node.getProperty propId = some prop ∧
      prop.canRefund = true ∧
      (m.refundUpgrade costCalc nodeId propId).2 = m.applyRefund nodeId propId amount := by
  cases hgn : m.getNode nodeId with
  | none => left; simp [UpgradeManager.refundUpgrade, hgn]
  | some node =>
    cases hgp : node.getProperty propId with
    | none => left; simp [UpgradeManager.refundUpgrade, hgn, hgp]
    | some prop =>
      cases hcr : prop.canRefund with
      | false => left; simp [UpgradeManager.refundUpgrade, hgn, hgp, hcr]
      | true =>
        cases hfd : (m.getChildren nodeId).find? (fun c =>
            c.hasInvestment && decide (node.getLevel - 1 < c.requiredParentLevel)) with
        | some child => left; simp [UpgradeManager.refundUpgrade, hgn, hgp, hcr, hfd]
        | none =>
          right
          exact ⟨node, prop, costCalc prop prop.level nodeId, rfl, hgp, hcr,
            by simp [UpgradeManager.refundUpgrade, hgn, hgp, hcr, hfd]⟩

theorem forall2_shape_updateNodes {bs ns : List NodeState} {nodeId propId : String}
    (h : List.Forall₂ NodeShape bs ns) (g : PropertyState → PropertyState)
    (hg : ∀ q p, PropShape q p → PropShape q (g p)) :
    List.Forall₂ NodeShape bs (updateFirstBy NodeState.id ns nodeId (fun n =>
      { n with properties := updateFirstBy PropertyState.id n.properties propId g })) := by
  apply forall2_updateFirstBy h
  intro a b hba
  obtain ⟨h1, h2, h3, h4, h5, h6⟩ := hba
  exact ⟨h1, h2, h3, h4, h5, forall2_updateFirstBy h6 (fun p q hqp => hg q p hqp)⟩

theorem levelsNat_applyPurchase {m : UpgradeManager} {nodeId propId : String} {cost : ℚ}
    {node : NodeState} {prop : PropertyState}
    (hln : LevelsNat m) (hgn : m.getNode nodeId = some node)
    (hgp : node.getProperty propId = some prop) (hcu : prop.canUpgrade = true) :
    LevelsNat (m.applyPurchase nodeId propId cost) := by
  intro n' hn' p' hp'
  rcases mem_updateFirstBy hn' with hold | ⟨b, hfb, hn'eq⟩
  · exact hln n' hold p' hp'
  · have hbnode : b = node := Option.some.inj ((hfb.symm.trans hgn).symm).symm
    subst hbnode
    subst hn'eq
    rcases mem_updateFirstBy hp' with holdp | ⟨p0, hfp0, hp'eq⟩
    · exact hln b (findByKey_mem hgn) p' holdp
    · have hp0 : p0 = prop := Option.some.inj (hfp0.symm.trans hgp)
      subst hp0
      subst hp'eq
      obtain ⟨k, hk, hkle⟩ := hln b (findByKey_mem hgn) p0 (findByKey_mem hgp)
      have hlt : (k : ℚ) < (p0.maxLevel : ℚ) := by
        have := of_decide_eq_true hcu
        rwa [hk] at this
      have hklt : k < p0.maxLevel := by exact_mod_cast hlt
      refine ⟨k + 1, ?_, hklt⟩
      show p0.level + 1 = ((k + 1 : ℕ) : ℚ)
      rw [hk]
      push_cast
      ring

theorem levelsNat_applyRefund {m : UpgradeManager} {nodeId propId : String} {amount : ℚ}
    {node : NodeState} {prop : PropertyState}
    (hln : LevelsNat m) (hgn : m.getNode nodeId = some node)
    (hgp : node.getProperty propId = some prop) (hcr : prop.canRefund = true) :
    LevelsNat (m.applyRefund nodeId propId amount) := by
  intro n' hn' p' hp'
  rcases mem_updateFirstBy hn' with hold | ⟨b, hfb, hn'eq⟩
  · exact hln n' hold p' hp'
  · have hbnode : b = node := Option.some.inj (hfb.symm.trans hgn)
    subst hbnode
    subst hn'eq
    rcases mem_updateFirstBy hp' with holdp | ⟨p0, hfp0, hp'eq⟩
    · exact hln b (findByKey_mem hgn) p' holdp
    · have hp0 : p0 = prop := Option.some.inj (hfp0.symm.trans hgp)
      subst hp0
      subst hp'eq
      obtain ⟨k, hk, hkle⟩ := hln b (findByKey_mem hgn) p0 (findByKey_mem hgp)
      have hpos : (0 : ℚ) < (k : ℚ) := by
        have := of_decide_eq_true hcr
        rwa [hk] at this
      have hk1 : 1 ≤ k := by exact_mod_cast hpos
      refine ⟨k - 1, ?_, le_trans (Nat.sub_le k 1) hkle⟩
      show p0.level - 1 = ((k - 1 : ℕ) : ℚ)
      rw [hk, Nat.cast_sub hk1, Nat.cast_one]

theorem reachable_invariants {costCalc : PropertyState → ℚ → String → ℚ}
    {cfg : List NodeConfig} {m : UpgradeManager} (h : Reachable costCalc cfg m) :
    List.Forall₂ NodeShape (initManager cfg).nodes m.nodes ∧ LevelsNat m := by
  induction h with
  | init =>
    constructor
    · exact List.forall₂_same.mpr (fun n _ => nodeShape_refl n)
    · intro n hn p hp
      simp only [initManager] at hn
      rcases List.mem_map.mp hn with ⟨c, hc, rfl⟩
      simp only [initNode] at hp
      rcases List.mem_map.mp hp with ⟨pc, hpc, rfl⟩
      exact ⟨0, by simp [initProperty], Nat.zero_le _⟩
  | gain m' amt hm ih =>
    refine ⟨by rw [addCurrency_nodes]; exact ih.1, ?_⟩
    intro n hn
    rw [addCurrency_nodes] at hn
    exact ih.2 n hn
  | buy m' nodeId propId hm ih =>
    rcases purchase_snd_cases costCalc m' nodeId propId with heq |
      ⟨node, prop, cost, hgn, hgp, hcu, heq⟩
    · rw [heq]; exact ih
    · rw [heq]
      refine ⟨?_, levelsNat_applyPurchase ih.2 hgn hgp hcu⟩
      show List.Forall₂ NodeShape _ (updateFirstBy NodeState.id m'.nodes nodeId _)
      exact forall2_shape_updateNodes ih.1 _ (fun q p hqp => propShape_level hqp _)
  | back m' nodeId propId hm ih =>
    rcases refund_snd_cases costCalc m' nodeId propId with heq |
      ⟨node, prop, amount, hgn, hgp, hcr, heq⟩
    · rw [heq]; exact ih
    · rw [heq]
      refine ⟨?_, levelsNat_applyRefund ih.2 hgn hgp hcr⟩
      show List.Forall₂ NodeShape _ (updateFirstBy NodeState.id m'.nodes nodeId _)
      exact forall2_shape_updateNodes ih.1 _ (fun q p hqp => propShape_level hqp _)

theorem forall2_restore_nodes {bs ns : List NodeState} (h : List.Forall₂ NodeShape bs ns)
    (hbnodup : ∀ b ∈ bs, (b.properties.map PropertyState.id).Nodup)
    (hklev : ∀ n ∈ ns, ∀ p ∈ n.properties, ∃ k : ℕ, p.level = (k : ℚ) ∧ k ≤ p.maxLevel) :
    List.Forall₂ (fun b n => b.id = n.id ∧
      (fun nd q => NodeState.deserialize q nd) n.serialize b = n) bs ns := by
  induction h with
  | nil => exact List.Forall₂.nil
  | @cons b n bs2 ns2 hbn hrest ih =>
    refine List.Forall₂.cons
      ⟨hbn.1, nodeDeserialize_restore hbn (hbnodup b (by simp))
        (fun p hp => hklev n (by simp) p hp)⟩
      (ih (fun t ht => hbnodup t (by simp [ht]))
        (fun t ht p hp => hklev t (by simp [ht]) p hp))

/-- C6: for every reachable state of a manager built from a well-formed
configuration (distinct node ids, distinct property ids per node) and
mutated only through the public API, deserializing its serialization into
a freshly built manager restores the full state: same currency, same
totalEarned, same level for every property of every node. -/
theorem serialize_deserialize_roundtrip (costCalc : PropertyState → ℚ → String → ℚ)
    (cfg : List NodeConfig) (m : UpgradeManager) (h : Reachable costCalc cfg m)
    (hnodes : (((initManager cfg).nodes.map NodeState.id)).Nodup)
    (hprops : ∀ n ∈ (initManager cfg).nodes, (n.properties.map PropertyState.id).Nodup) :
    (initManager cfg).deserialize m.serialize = m := by
  obtain ⟨hshape, hlev⟩ := reachable_invariants h
  have hids : (initManager cfg).nodes.map NodeState.id = m.nodes.map NodeState.id :=
    map_eq_of_forall2 NodeState.id NodeState.id hshape (fun b n hbn => hbn.1)
  have hnodup2 : (m.nodes.map NodeState.id).Nodup := hids ▸ hnodes
  have hforall := forall2_restore_nodes hshape hprops hlev
  have hrestore := foldl_updateFirstBy_restore NodeState.id NodeSave.id
    (fun nd q => NodeState.deserialize q nd) NodeState.serialize
    hforall hnodup2 (fun n _ => rfl)
  have hstep : (initManager cfg).deserialize m.serialize
      = { currency := orZero m.currency, totalEarned := orZero m.totalEarned,
          nodes := m.nodes } := by
    simp only [UpgradeManager.deserialize, UpgradeManager.serialize]
    rw [hrestore]
  rw [hstep, orZero_eq, orZero_eq]

/-- Witness for C6: build from a one-node configuration, add 5 currency,
buy one level at cost 2, then round-trip through serialize/deserialize. -/
theorem serialize_deserialize_roundtrip_witness :
    (((initManager cfgW).nodes.map NodeState.id).Nodup) ∧
    (∀ n ∈ (initManager cfgW).nodes, (n.properties.map PropertyState.id).Nodup) ∧
    (initManager cfgW).deserialize mRoundtrip.serialize = mRoundtrip := by
  refine ⟨by decide, by decide, ?_⟩
  exact serialize_deserialize_roundtrip (constCalc 2) cfgW mRoundtrip
    (Reachable.buy _ "dot" "dotSpeed" (Reachable.gain _ 5 Reachable.init))
    (by decide) (by decide)
